import Mathlib

/-!
Verification development for the Sydney property aggregation pipeline.

We give a shallow embedding, in Lean 4, of the three core components:

* `backend/services/property_deduplicator.py` — standardization, pairwise
  matching, grouping and merging of `Property` records;
* `backend/services/concurrent_property_fetcher.py` — the fetch result cache,
  the per-page retry loop and the batch orchestrator;
* `app/services/recommendation_service.py` — hard filters, the weighted
  scoring model and the sorted top-K output.

Python strings are modelled as Lean `String`/`List Char` (the repository only
handles ASCII data), Python `float` as `ℚ` (all arithmetic in the source is
small-magnitude and the spec treats the numbers as reals), Python `int` as
`ℤ`/`ℕ`, `None` as `Option.none`.  Wall-clock time and the network are passed
in explicitly as parameters/oracles.  Mutation is modelled by explicit state
passing; for the frame claim about the deduplicator an explicit object heap is
used so that Python object identity is visible.
-/

/-! ### Python string primitives used by the source -/

/-- A regex word character (`\w` with ASCII semantics): `[A-Za-z0-9_]`. -/
def wordChar (c : Char) : Bool := c.isAlphanum || c == ('_')

/-- `chPre n l`: `n` is a prefix of `l` (character lists). -/
def chPre : List Char → List Char → Bool
  | [], _ => true
  | _ :: _, [] => false
  | a :: as, b :: bs => a == b && chPre as bs

/-- `chSub n h`: the character list `n` occurs contiguously inside `h`.
Models Python's substring test `n in h`. -/
def chSub (n : List Char) : List Char → Bool
  | [] => n.isEmpty
  | c :: t => chPre n (c :: t) || chSub n t

/-- Python `needle in hay` on strings. -/
def strIn (needle hay : String) : Bool := chSub needle.toList hay.toList

/-- Helper for `pyTitle`: `prevAlpha` records whether the previous character
was alphabetic. -/
def pyTitleAux : Bool → List Char → List Char
  | _, [] => []
  | prevAlpha, c :: t =>
    (if c.isAlpha then (if prevAlpha then c.toLower else c.toUpper) else c)
      :: pyTitleAux c.isAlpha t

/-- Python `str.title()`: the first letter of every maximal alphabetic run is
upper-cased, the rest lower-cased; non-letters are unchanged. -/
def pyTitle (s : String) : String := String.mk (pyTitleAux false s.toList)

/-- Drop leading and trailing whitespace from a character list
(Python `str.strip()`). -/
def trimChars (l : List Char) : List Char :=
  ((l.dropWhile Char.isWhitespace).reverse.dropWhile Char.isWhitespace).reverse

/-- Python `str.lower()` (ASCII). -/
def pyLower (s : String) : String := String.mk (s.toList.map Char.toLower)

/-- Python `str.strip()`. -/
def pyStrip (s : String) : String := String.mk (trimChars s.toList)

/-- Replace every maximal whitespace run by a single space: the effect of
`re.sub(r'\s+', ' ', s)`.  The boolean records whether the previous character
was whitespace (in which case the current run was already emitted). -/
def squeezeWsAux : Bool → List Char → List Char
  | _, [] => []
  | prev, c :: t =>
    if c.isWhitespace then
      (if prev then squeezeWsAux true t else (' ') :: squeezeWsAux true t)
    else c :: squeezeWsAux false t

/-- One pass of `re.sub(r'\bTOK\b', rep, s, flags=IGNORECASE)` where `TOK` is a
word made of word characters: every maximal word-character run equal to `tok`
up to case is replaced by `rep`. -/
def replaceWord (tok rep : String) : List Char → List Char
  | [] => []
  | c :: t =>
    if wordChar c then
      let w := c :: t.takeWhile wordChar
      let rest := t.dropWhile wordChar
      (if pyLower (String.mk w) == pyLower tok then rep.toList else w)
        ++ replaceWord tok rep rest
    else c :: replaceWord tok rep t
termination_by l => l.length
decreasing_by
  · exact Nat.lt_succ_of_le ((List.dropWhile_suffix _).sublist.length_le)
  · exact Nat.lt_succ_self _

/-! ### Data model: `backend/models/property.py` -/

/-- `backend.models.property.Property` (the dataclass fields). -/
structure Property where
  address : String
  suburb : String
  price : String
  price_numeric : Option ℚ
  bedrooms : ℤ
  bathrooms : ℤ
  parking : ℤ
  property_type : String
  link : String
deriving DecidableEq, Inhabited

/-- The values of the `PropertyType` enum, in declaration order. -/
def propertyTypeEnumVals : List String :=
  ["Apartment / Unit / Flat", "House", "Townhouse", "Villa", "Studio", "Other"]

/-- `Property.__post_init__`: if `property_type` is truthy, the first enum
value whose lower-cased text occurs inside the lower-cased `property_type`
replaces it. -/
def postInitType (pt : String) : String :=
  if pt == ("") then pt
  else
    match propertyTypeEnumVals.find? (fun v => strIn (pyLower v) (pyLower pt)) with
    | some v => v
    | none => pt

/-- Constructing a `Property(...)` in Python runs `__post_init__`. -/
def mkProperty (address suburb price : String) (price_numeric : Option ℚ)
    (bedrooms bathrooms parking : ℤ) (property_type link : String) : Property :=
  ⟨address, suburb, price, price_numeric, bedrooms, bathrooms, parking,
    postInitType property_type, link⟩

/-! ### Standardization (`PropertyDeduplicator._standardize_*`) -/

/-- `PropertyDeduplicator._load_property_type_mapping`, in insertion order. -/
def propertyTypeMapping : List (String × String) :=
  [("apartment", "Apartment / Unit / Flat"),
   ("unit", "Apartment / Unit / Flat"),
   ("flat", "Apartment / Unit / Flat"),
   ("apt", "Apartment / Unit / Flat"),
   ("condo", "Apartment / Unit / Flat"),
   ("condominium", "Apartment / Unit / Flat"),
   ("studio apartment", "Studio"),
   ("studio unit", "Studio"),
   ("house", "House"),
   ("home", "House"),
   ("detached house", "House"),
   ("family home", "House"),
   ("residence", "House"),
   ("dwelling", "House"),
   ("townhouse", "Townhouse"),
   ("town house", "Townhouse"),
   ("terrace", "Townhouse"),
   ("terrace house", "Townhouse"),
   ("row house", "Townhouse"),
   ("villa", "Villa"),
   ("villas", "Villa"),
   ("studio", "Studio"),
   ("penthouse", "Penthouse"),
   ("duplex", "Duplex"),
   ("retirement living", "Retirement Living"),
   ("serviced apartment", "Serviced Apartment")]

/-- `PropertyDeduplicator._load_suburb_aliases`. -/
def suburbAliases : List (String × List String) :=
  [("Bondi", ["Bondi Beach", "North Bondi"]),
   ("Sydney", ["Sydney CBD", "Sydney City", "City"]),
   ("Parramatta", ["Parramatta CBD", "Parramatta City"]),
   ("Chatswood", ["Chatswood West"]),
   ("Lane Cove", ["Lane Cove North", "Lane Cove West"])]

/-- The regex replacement table of `_standardize_address`
(`\bSt\b → Street`, …, applied in this order, case-insensitively). -/
def addressReplacements : List (String × String) :=
  [("St", "Street"), ("Rd", "Road"), ("Ave", "Avenue"), ("Dr", "Drive"),
   ("Cres", "Crescent"), ("Pl", "Place"), ("Ln", "Lane"), ("Ct", "Court"),
   ("Pde", "Parade"), ("Tce", "Terrace"), ("Nsw", "NSW")]

/-- `PropertyDeduplicator._standardize_address`. -/
def standardize_address (address : String) : String :=
  if address == ("") then ("")
  else
    let a1 := pyTitle address
    let a2 := addressReplacements.foldl
      (fun (s : List Char) pr => replaceWord pr.1 pr.2 s) a1.toList
    String.mk (trimChars (squeezeWsAux false a2))

/-- `PropertyDeduplicator._standardize_property_type`. -/
def standardize_property_type (property_type : String) : String :=
  if property_type == ("") then ("Unknown")
  else
    let ptl := pyStrip (pyLower property_type)
    match propertyTypeMapping.find? (fun kv => kv.1 == ptl) with
    | some kv => kv.2
    | none =>
      match propertyTypeMapping.find? (fun kv => strIn kv.1 ptl || strIn ptl kv.1) with
      | some kv => kv.2
      | none => pyTitle property_type

/-- Python `abs` on a rational, in a form the kernel evaluates directly. -/
def qAbs (q : ℚ) : ℚ := if q < 0 then -q else q

/-- Round a rational to the nearest integer, ties to even: the rounding used
by Python's `round` and by the `:.0f` / `:,.0f` format specifiers (the source
only ever formats values that are exactly representable, so the float model
is exact here). -/
def roundHalfEven (q : ℚ) : ℤ :=
  let f := Int.floor q
  let r := q - f
  if r < 1/2 then f
  else if 1/2 < r then f + 1
  else if f % 2 = 0 then f else f + 1

/-- Digit characters of a natural number, most significant first. -/
def natDigitChars (n : ℕ) : List Char := (Nat.toDigits 10 n)

/-- Insert a comma before every group of three digits, counting from the
right: the thousands grouping of Python's `:,` format flag.  Input is the
digit list most significant first. -/
def commaGroup (ds : List Char) : List Char :=
  (go ds.reverse).reverse
where
  go : List Char → List Char
    | a :: b :: c :: d :: rest => a :: b :: c :: (',') :: go (d :: rest)
    | l => l

/-- Python `f"${x:,.0f}"`. -/
def fmtDollarComma (x : ℚ) : String :=
  let n := roundHalfEven x
  let digits := commaGroup (natDigitChars n.natAbs)
  String.mk ((('$') :: (if n < 0 then [('-')] else []) ++ digits))

/-- Python `f"${x:.0f}"`. -/
def fmtDollarPlain (x : ℚ) : String :=
  let n := roundHalfEven x
  String.mk ((('$') :: (if n < 0 then [('-')] else []) ++ natDigitChars n.natAbs))

/-- Value of a digit list (most significant first). -/
def digitsVal (ds : List Char) : ℕ :=
  ds.foldl (fun acc c => acc * 10 + (c.toNat - ('0').toNat)) 0

/-- Python `float(s)` restricted to the strings the price regex can produce
after comma removal: an optional integer part, an optional `.` with an
optional fractional part.  `float("")` and `float(".")` raise, giving
`none`. -/
def pyFloat (s : List Char) : Option ℚ :=
  let intPart := s.takeWhile Char.isDigit
  let rest := s.dropWhile Char.isDigit
  match rest with
  | [] => if intPart.isEmpty then none else some (digitsVal intPart)
  | dot :: frac =>
    if dot == ('.') && frac.all Char.isDigit then
      if intPart.isEmpty && frac.isEmpty then none
      else some ((digitsVal intPart : ℚ) + (digitsVal frac : ℚ) / (10 : ℚ) ^ frac.length)
    else none

/-- The leftmost match of `re.search(r'[\$]?([0-9,]+(?:\.[0-9]+)?)', s)`,
returning the text of group 1.  The scanner looks for the first position
where an optional `$` is followed by at least one `[0-9,]` character; the
group is the maximal `[0-9,]` run, extended by `.digits` when present. -/
def priceGroup : List Char → Option (List Char)
  | [] => none
  | c :: t =>
    if c.isDigit || c == (',') then some (grab (c :: t))
    else if c == ('$') then
      match t with
      | d :: _ => if d.isDigit || d == (',') then some (grab t) else priceGroup t
      | [] => none
    else priceGroup t
where
  grab (l : List Char) : List Char :=
    let run := l.takeWhile (fun x => x.isDigit || x == (','))
    let rest := l.dropWhile (fun x => x.isDigit || x == (','))
    match rest with
    | dot :: d :: _ =>
      if dot == ('.') && d.isDigit then
        run ++ (('.') :: (rest.drop 1).takeWhile Char.isDigit)
      else run
    | _ => run

/-- The `contact_variations` list of `_standardize_price`. -/
def contactVariations : List String :=
  ["contact agent", "contact", "price on application", "poa", "enquire"]

/-- Python truthiness of an `Optional[float]`: `None` and `0.0` are falsy. -/
def truthyQ : Option ℚ → Bool
  | none => false
  | some x => x != 0

/-- `PropertyDeduplicator._standardize_price`. -/
def standardize_price (price : String) (price_numeric : Option ℚ) :
    String × Option ℚ :=
  if price == ("") then (("Contact Agent"), none)
  else
    let price_clean := pyStrip price
    if contactVariations.any (fun v => strIn v (pyLower price_clean)) then
      (("Contact Agent"), none)
    else
      let pn :=
        match price_numeric with
        | some x => some x
        | none =>
          match priceGroup price_clean.toList with
          | some g => pyFloat (g.filter (fun c => c != (',')))
          | none => none
      let formatted :=
        match pn with
        | some x =>
          if x != 0 then
            if x ≥ 1000000 then fmtDollarComma x
            else if x ≥ 1000 then fmtDollarComma x
            else fmtDollarPlain x
          else price_clean
        | none => price_clean
      (formatted, pn)

/-- `PropertyDeduplicator._standardize_suburb`. -/
def standardize_suburb (suburb : String) : String :=
  if suburb == ("") then ("")
  else
    let s := pyStrip (pyTitle suburb)
    match suburbAliases.find? (fun ma => ma.2.contains s) with
    | some ma => ma.1
    | none => s

/-- The per-record change counters returned by `_standardize_property`
(`addresses_cleaned`, `property_types_standardized`, `prices_normalized`,
`suburbs_standardized`). -/
structure StdChanges where
  addresses_cleaned : ℕ
  property_types_standardized : ℕ
  prices_normalized : ℕ
  suburbs_standardized : ℕ
deriving DecidableEq, Inhabited

/-- `PropertyDeduplicator._standardize_property`: build a fresh copy (running
`__post_init__`), then standardize address, property type, price and suburb
on the copy, counting which fields changed. -/
def standardize_property (p : Property) : Property × StdChanges :=
  let std0 := mkProperty p.address p.suburb p.price p.price_numeric
    p.bedrooms p.bathrooms p.parking p.property_type p.link
  let a := standardize_address std0.address
  let std1 := { std0 with address := a }
  let ca : ℕ := if a != std0.address then 1 else 0
  let t := standardize_property_type std1.property_type
  let std2 := { std1 with property_type := t }
  let ct : ℕ := if t != std1.property_type then 1 else 0
  let pr := standardize_price std2.price std2.price_numeric
  let std3 := { std2 with price := pr.1, price_numeric := pr.2 }
  let cp : ℕ := if pr.1 != std2.price then 1 else 0
  let s := standardize_suburb std3.suburb
  let std4 := { std3 with suburb := s }
  let cs : ℕ := if s != std3.suburb then 1 else 0
  (std4, ⟨ca, ct, cp, cs⟩)

/-! ### `difflib.SequenceMatcher.ratio` (Python stdlib, used by
`_calculate_address_similarity`)

The inputs here are short (< 200 characters), so `autojunk` never marks any
element as junk and the junk extensions of `find_longest_match` are no-ops. -/

/-- `b2j[c]`: the ascending list of positions of `c` in `b`. -/
def b2j (b : List Char) (c : Char) : List ℕ :=
  (List.range b.length).filter (fun j => b.getD j (' ') == c)

/-- One row of `find_longest_match`'s dynamic program: process line `i`,
given the previous row's map `j2len` (positions `j` paired with the length of
the common run ending at `(i-1, j)`), the in-range positions `js` of `a[i]`
in `b`, and the best match so far.  Returns the new row and best. -/
def flmRow (i : ℕ) (js : List ℕ) (j2len : List (ℕ × ℕ))
    (best : ℕ × ℕ × ℕ) : List (ℕ × ℕ) × (ℕ × ℕ × ℕ) :=
  js.foldl
    (fun acc j =>
      let k := (if j = 0 then 0 else ((j2len.lookup (j - 1)).getD 0)) + 1
      let best' := if k > acc.2.2.2 then (i + 1 - k, j + 1 - k, k) else acc.2
      (acc.1 ++ [(j, k)], best'))
    ([], best)

/-- `SequenceMatcher.find_longest_match(alo, ahi, blo, bhi)` (no junk):
returns `(besti, bestj, bestsize)`. -/
def findLongestMatch (a b : List Char) (alo ahi blo bhi : ℕ) : ℕ × ℕ × ℕ :=
  ((List.range' alo (ahi - alo)).foldl
    (fun st i =>
      let js := (b2j b (a.getD i (' '))).filter
        (fun j => Nat.ble blo j && Nat.blt j bhi)
      flmRow i js st.1 st.2)
    ([], (alo, blo, 0))).2

/-- Total size of the matching blocks of `get_matching_blocks` on the range
`[alo, ahi) × [blo, bhi)`: the longest match plus, recursively, the matches
strictly to its left and strictly to its right.  `fuel` bounds the recursion
depth; every recursive call strictly shrinks `(ahi - alo) + (bhi - blo)`, so
`(ahi - alo) + (bhi - blo) + 1` units always suffice. -/
def matchTotal (a b : List Char) : ℕ → ℕ → ℕ → ℕ → ℕ → ℕ
  | 0, _, _, _, _ => 0
  | fuel + 1, alo, ahi, blo, bhi =>
    let m := findLongestMatch a b alo ahi blo bhi
    let i := m.1
    let j := m.2.1
    let k := m.2.2
    if k = 0 then 0
    else
      k + (if alo < i && blo < j then matchTotal a b fuel alo i blo j else 0)
        + (if i + k < ahi && j + k < bhi then matchTotal a b fuel (i + k) ahi (j + k) bhi else 0)

/-- `SequenceMatcher(None, a, b).ratio()`: `2*M / (len(a)+len(b))` where `M`
is the total size of the matching blocks (`_calculate_ratio`). -/
def seqRatio (a b : List Char) : ℚ :=
  let la := a.length
  let lb := b.length
  if la + lb = 0 then 1
  else 2 * (matchTotal a b (la + lb + 1) 0 la 0 lb : ℚ) / (la + lb : ℚ)

/-! ### Pairwise matching (`PropertyDeduplicator._compare_properties`) -/

/-- The constructor parameters of `PropertyDeduplicator`
(`address_similarity_threshold`, `price_tolerance_percent`,
`coordinate_tolerance_meters`), with their default values. -/
structure DedupConfig where
  address_similarity_threshold : ℚ := 85 / 100
  price_tolerance_percent : ℚ := 5
  coordinate_tolerance_meters : ℚ := 50
deriving DecidableEq, Inhabited

/-- The default-constructed `PropertyDeduplicator()`. -/
def defaultDedupConfig : DedupConfig := {}

/-- Normalization inside `_calculate_address_similarity`:
`re.sub(r'[^\w\s]', '', addr.lower()).strip()`. -/
def addrNorm (addr : String) : List Char :=
  trimChars ((pyLower addr).toList.filter (fun c => wordChar c || c.isWhitespace))

/-- `PropertyDeduplicator._calculate_address_similarity`. -/
def calculate_address_similarity (addr1 addr2 : String) : ℚ :=
  if addr1 == ("") || addr2 == ("") then 0
  else
    let n1 := addrNorm addr1
    let n2 := addrNorm addr2
    let similarity := seqRatio n1 n2
    let d1 := n1.takeWhile Char.isDigit
    let d2 := n2.takeWhile Char.isDigit
    if !d1.isEmpty && !d2.isEmpty && d1 == d2 then min 1 (similarity + 1/10)
    else similarity

/-- `PropertyDeduplicator._calculate_price_similarity`. -/
def calculate_price_similarity (cfg : DedupConfig)
    (price1 price2 : Option ℚ) : ℚ :=
  match price1, price2 with
  | none, none => 1
  | none, some _ => 0
  | some _, none => 0
  | some p1, some p2 =>
    if p1 = 0 || p2 = 0 then 0
    else
      let avg_price := (p1 + p2) / 2
      let diff_percent := qAbs (p1 - p2) / avg_price * 100
      if diff_percent ≤ cfg.price_tolerance_percent then
        1 - diff_percent / cfg.price_tolerance_percent * (3/10)
      else max 0 (1 - diff_percent / 50)

/-- `PropertyDeduplicator._calculate_features_similarity`. -/
def calculate_features_similarity (p1 p2 : Property) : ℚ :=
  let bed : ℚ := if p1.bedrooms = p2.bedrooms then 1
    else if (p1.bedrooms - p2.bedrooms).natAbs = 1 then 1/2 else 0
  let bath : ℚ := if p1.bathrooms = p2.bathrooms then 1
    else if (p1.bathrooms - p2.bathrooms).natAbs = 1 then 1/2 else 0
  let park : ℚ := if p1.parking = p2.parking then 1
    else if (p1.parking - p2.parking).natAbs = 1 then 1/2 else 0
  (bed + bath + park) / 3

/-- `PropertyMatch` (deduplicator dataclass). -/
structure PropertyMatch where
  property1 : Property
  property2 : Property
  match_score : ℚ
  match_criteria : List String
  confidence : String
deriving DecidableEq, Inhabited

/-- Python `f"{x:.2f}"` on a rational: round half-even at two decimal
places and print both decimals. -/
def fmt2 (q : ℚ) : String :=
  let n := roundHalfEven (q * 100)
  let sign := if n < 0 then ("-") else ("")
  let ip := String.mk (natDigitChars (n.natAbs / 100))
  let fr := n.natAbs % 100
  let frs := (if fr < 10 then ("0") else ("")) ++ String.mk (natDigitChars fr)
  sign ++ ip ++ (".") ++ frs

/-- `PropertyDeduplicator._compare_properties`: `none` when the two records
are not considered duplicates. -/
def compare_properties (cfg : DedupConfig) (prop1 prop2 : Property) :
    Option PropertyMatch :=
  let address_score := calculate_address_similarity prop1.address prop2.address
  let addressHit := address_score ≥ cfg.address_similarity_threshold
  let price_score := calculate_price_similarity cfg prop1.price_numeric prop2.price_numeric
  let priceHit := price_score > 7/10
  let features_score := calculate_features_similarity prop1 prop2
  let featuresHit := features_score > 8/10
  let suburb_score : ℚ := if pyLower prop1.suburb == pyLower prop2.suburb then 1 else 0
  let suburbHit := suburb_score > 0
  let match_criteria :=
    (if addressHit then [("Address similarity: ") ++ fmt2 address_score] else [])
    ++ (if priceHit then [("Price similarity: ") ++ fmt2 price_score] else [])
    ++ (if featuresHit then [("Features similarity: ") ++ fmt2 features_score] else [])
    ++ (if suburbHit then [("Suburb match")] else [])
  let total_score :=
    (if addressHit then address_score * (4/10) else 0)
    + (if priceHit then price_score * (2/10) else 0)
    + (if featuresHit then features_score * (3/10) else 0)
    + (if suburbHit then suburb_score * (1/10) else 0)
  let max_score : ℚ := 4/10 + 2/10 + 3/10 + 1/10
  let final_score := if max_score > 0 then total_score / max_score else 0
  let confidence :=
    if final_score ≥ 8/10 then some ("high")
    else if final_score ≥ 6/10 then some ("medium")
    else if final_score ≥ 4/10 then some ("low")
    else none
  match confidence with
  | none => none
  | some conf =>
    if match_criteria.length ≥ 2 then
      some ⟨prop1, prop2, final_score, match_criteria, conf⟩
    else none

/-! ### Merging (`PropertyDeduplicator._merge_properties`) -/

/-- The `property_type_priority` table of `_merge_properties`; `.get(t, 1)`
defaults to priority 1. -/
def propertyTypePriority : List (String × ℕ) :=
  [("Unknown", 0), ("Apartment / Unit / Flat", 2), ("House", 2),
   ("Townhouse", 2), ("Studio", 3), ("Penthouse", 4), ("Villa", 3)]

/-- Priority of a property type label, defaulting to 1. -/
def typePriority (t : String) : ℕ := (propertyTypePriority.lookup t).getD 1

/-- The `link_priority` table of `_merge_properties`. -/
def linkPriority : List (String × ℕ) :=
  [("domain.com.au", 3), ("realestate.com.au", 2), ("rent.com.au", 1)]

/-- The inner loop of the link-selection step: scan the priority table in
order; on the first site contained in `link` whose priority beats the current
best, adopt `link` and stop scanning (the `break`).  Otherwise keep going. -/
def linkScan (acc : String × ℕ) (link : String) : List (String × ℕ) → String × ℕ
  | [] => acc
  | (site, pr) :: rest =>
    if strIn site link && decide (pr > acc.2) then (link, pr)
    else linkScan acc link rest

/-- The price-preference loop of `_merge_properties`: the first member with a
truthy `price_numeric` fills in a falsy merged price (the loop `break`s after
the first update; if the merged price is already truthy no update ever
fires). -/
def mergePriceLoop (m : Property) : List Property → Property
  | [] => m
  | p :: rest =>
    if truthyQ p.price_numeric && !truthyQ m.price_numeric then
      { m with price := p.price, price_numeric := p.price_numeric }
    else mergePriceLoop m rest

/-- `PropertyDeduplicator._merge_properties`.  The Python code is only ever
called with a non-empty group; on `[]` we return the default record. -/
def merge_properties (properties : List Property) : Property :=
  match properties with
  | [] => default
  | [p] => p
  | p0 :: rest =>
    let merged := mkProperty p0.address p0.suburb p0.price p0.price_numeric
      p0.bedrooms p0.bathrooms p0.parking p0.property_type p0.link
    let all_links := (p0 :: rest).filterMap
      (fun p => if p.link == ("") then none else some p.link)
    let m1 := mergePriceLoop merged (p0 :: rest)
    let m2 := (p0 :: rest).foldl
      (fun m p => if p.address.length > m.address.length then { m with address := p.address } else m)
      m1
    let m3 := (p0 :: rest).foldl
      (fun m p => if typePriority p.property_type > typePriority m.property_type then { m with property_type := p.property_type } else m)
      m2
    let best := all_links.foldl (fun acc link => linkScan acc link linkPriority)
      (m3.link, 0)
    { m3 with link := best.1 }

/-! ### The main loop (`PropertyDeduplicator.deduplicate_properties`) -/

/-- `DeduplicationResult` (deduplicator dataclass).  `processing_time_ms`
measures wall-clock time, which is not modelled: it is always 0 here. -/
structure DeduplicationResult where
  unique_properties : List Property
  duplicates_found : ℕ
  «matches» : List PropertyMatch
  standardization_changes : StdChanges
  processing_time_ms : ℕ
deriving DecidableEq, Inhabited

/-- The inner loop over `j` for pivot `i`: the later, not yet processed
indices whose record matches the pivot's, paired with the match objects. -/
def collectMatches (cfg : DedupConfig) (std : List Property) (i : ℕ)
    (processed : List ℕ) : List (ℕ × PropertyMatch) :=
  (List.range' (i + 1) (std.length - (i + 1))).filterMap
    (fun j =>
      if j ∈ processed then none
      else (compare_properties cfg (std.getD i default) (std.getD j default)).map
        (fun m => (j, m)))

/-- The outer loop of `deduplicate_properties`, one `fuel` unit per iteration
of the loop index `i` (the caller passes `fuel = std.length`, which runs the
loop for every index exactly as the Python `for` does).  Returns the unique
records and the accumulated matches. -/
def dedupGo (cfg : DedupConfig) (std : List Property) :
    ℕ → ℕ → List ℕ → List Property × List PropertyMatch
  | 0, _, _ => ([], [])
  | fuel + 1, i, processed =>
    if i < std.length then
      if i ∈ processed then dedupGo cfg std fuel (i + 1) processed
      else
        let cm := collectMatches cfg std i processed
        if cm.isEmpty then
          let r := dedupGo cfg std fuel (i + 1) (processed ++ [i])
          (std.getD i default :: r.1, r.2)
        else
          let properties_to_merge := std.getD i default :: cm.map (fun jm => std.getD jm.1 default)
          let merged := merge_properties properties_to_merge
          let r := dedupGo cfg std fuel (i + 1) (processed ++ i :: cm.map Prod.fst)
          (merged :: r.1, cm.map Prod.snd ++ r.2)
    else ([], [])

/-- `PropertyDeduplicator.deduplicate_properties`. -/
def deduplicate_properties (cfg : DedupConfig) (properties : List Property) :
    DeduplicationResult :=
  let stdPairs := properties.map standardize_property
  let standardized_properties := stdPairs.map Prod.fst
  let changes := stdPairs.foldl
    (fun (acc : StdChanges) pr =>
      ⟨acc.addresses_cleaned + pr.2.addresses_cleaned,
       acc.property_types_standardized + pr.2.property_types_standardized,
       acc.prices_normalized + pr.2.prices_normalized,
       acc.suburbs_standardized + pr.2.suburbs_standardized⟩)
    ⟨0, 0, 0, 0⟩
  let r := dedupGo cfg standardized_properties standardized_properties.length 0 []
  { unique_properties := r.1
    duplicates_found := properties.length - r.1.length
    «matches» := r.2
    standardization_changes := changes
    processing_time_ms := 0 }

/-! ### Fetcher data model (`backend/services/concurrent_property_fetcher.py`)

The network is an oracle `net : ℕ → NetOutcome` giving the outcome of each
attempt of one task; elapsed wall-clock milliseconds per attempt are an
oracle `elapsed`; the parser registry is an oracle `parse` (an external
collaborator per the spec).  Times are rationals measured in minutes (the
cache TTL unit used by the source). -/

/-- Outcome of one `session.get` attempt: an HTTP response, or one of the
three exception classes the retry loop distinguishes
(`asyncio.TimeoutError`, `aiohttp.ClientError`, anything else). -/
inductive NetOutcome where
  | status (code : ℕ) (body : String)
  | timeout
  | clientError (msg : String)
  | failure (msg : String)
deriving DecidableEq, Inhabited

/-- `FetchResult` (fetcher dataclass).  `fetch_time` is the `datetime.now()`
recorded by `__post_init__`, `response_time_ms` the measured latency. -/
structure FetchResult where
  url : String
  site : String
  success : Bool
  status_code : Option ℕ
  content : Option String
  properties : List Property
  error : Option String
  fetch_time : ℚ
  response_time_ms : Option ℕ
deriving DecidableEq, Inhabited

/-- `FetchResult(url=url, site=site, success=False)`: the pre-loop result
object; `__post_init__` fills `properties = []` and `fetch_time = now`. -/
def initFetchResult (url site : String) (now : ℚ) : FetchResult :=
  ⟨url, site, false, none, none, [], none, now, none⟩

/-- Python truthiness of an `Optional[str]`. -/
def truthyS : Option String → Bool
  | none => false
  | some s => s != ("")

/-- The code after the retry loop: `if not result.success and
last_exception:` overwrite `error` with the exhausted-retries message. -/
def finalizeResult (retries : ℕ) (res : FetchResult) (lastExc : Option String)
    (used : ℕ) : FetchResult × ℕ :=
  if !res.success && truthyS lastExc then
    match lastExc with
    | some m =>
      ({ res with error := some ((("Failed after ") ++ toString retries)
          ++ ((" attempts. Last error: ") ++ m)) }, used)
    | none => (res, used)
  else (res, used)

/-- The retry loop of `_fetch_single_property_page`, one `fuel` unit per
remaining loop iteration (the caller passes `fuel = retries`, `attempt = 0`).
Returns the finalized `FetchResult` together with the number of network
attempts actually issued. -/
def attemptGo (retries : ℕ) (net : ℕ → NetOutcome)
    (parse : String → List Property) (elapsed : ℕ → ℕ) :
    ℕ → ℕ → FetchResult → Option String → ℕ → FetchResult × ℕ
  | 0, _, res, lastExc, used => finalizeResult retries res lastExc used
  | fuel + 1, attempt, res, lastExc, used =>
    match net attempt with
    | NetOutcome.status c body =>
      let res := { res with status_code := some c,
                            response_time_ms := some (elapsed attempt) }
      if c = 200 then
        finalizeResult retries
          { res with content := some body, success := true,
                     properties := parse body } lastExc (used + 1)
      else if c = 429 then
        attemptGo retries net parse elapsed fuel (attempt + 1)
          { res with error := some (("Rate limited (429) on attempt ")
              ++ toString (attempt + 1)) } lastExc (used + 1)
      else if c = 403 ∨ c = 404 then
        finalizeResult retries
          { res with error := some (("Client error ") ++ toString c) }
          lastExc (used + 1)
      else
        attemptGo retries net parse elapsed fuel (attempt + 1)
          { res with error := some ((("HTTP ") ++ toString c)
              ++ ((" on attempt ") ++ toString (attempt + 1))) } lastExc (used + 1)
    | NetOutcome.timeout =>
      attemptGo retries net parse elapsed fuel (attempt + 1)
        { res with error := some (("Timeout on attempt ")
            ++ toString (attempt + 1)) } (some ("Request timeout")) (used + 1)
    | NetOutcome.clientError m =>
      attemptGo retries net parse elapsed fuel (attempt + 1)
        { res with error := some ((("Client error on attempt ")
            ++ toString (attempt + 1)) ++ ((": ") ++ m)) } (some m) (used + 1)
    | NetOutcome.failure m =>
      attemptGo retries net parse elapsed fuel (attempt + 1)
        { res with error := some ((("Unexpected error on attempt ")
            ++ toString (attempt + 1)) ++ ((": ") ++ m)) } (some m) (used + 1)

/-- The retry loop of `_fetch_single_property_page`, started like the Python
`for attempt in range(config.retry_attempts)`. -/
def fetch_attempt_loop (retries : ℕ) (url site : String) (net : ℕ → NetOutcome)
    (parse : String → List Property) (now : ℚ) (elapsed : ℕ → ℕ) :
    FetchResult × ℕ :=
  attemptGo retries net parse elapsed retries 0 (initFetchResult url site now) none 0

/-! ### `PropertyFetchCache`

The Python cache keys entries by `md5(url)`; md5 is collision-free on the
URLs handled, so the model keys directly by URL.  The stored timestamp is
the `datetime.now()` of the `set`; the TTL is in minutes. -/

/-- The cache state: url ↦ (result, stored-at time). -/
abbrev FetchCache := List (String × FetchResult × ℚ)

/-- Raw lookup of the entry for a url. -/
def cacheFind (c : FetchCache) (url : String) : Option (FetchResult × ℚ) :=
  (c.find? (fun e => e.1 == url)).map (fun e => e.2)

/-- `PropertyFetchCache.get`: a hit strictly inside the TTL returns the
stored result; an expired entry is deleted and misses. -/
def cache_get (c : FetchCache) (ttl : ℚ) (url : String) (now : ℚ) :
    Option FetchResult × FetchCache :=
  match cacheFind c url with
  | some rt =>
    if now - rt.2 < ttl then (some rt.1, c)
    else (none, c.filter (fun e => !(e.1 == url)))
  | none => (none, c)

/-- `PropertyFetchCache.set`. -/
def cache_set (c : FetchCache) (url : String) (r : FetchResult) (now : ℚ) :
    FetchCache :=
  c.filter (fun e => !(e.1 == url)) ++ [(url, r, now)]

/-- `PropertyFetchCache.clear_expired`. -/
def cache_clear_expired (c : FetchCache) (ttl now : ℚ) : FetchCache :=
  c.filter (fun e => now - e.2.2 < ttl)

/-- `_fetch_single_property_page`: consult the cache first; on a miss run
the retry loop and cache a successful result.  Returns the result, the new
cache state, and the number of network attempts issued. -/
def fetch_single_property_page (ttl : ℚ) (c : FetchCache) (now : ℚ)
    (url site : String) (retries : ℕ) (net : ℕ → NetOutcome)
    (parse : String → List Property) (elapsed : ℕ → ℕ) :
    FetchResult × FetchCache × ℕ :=
  match cache_get c ttl url now with
  | (some r, c') => (r, c', 0)
  | (none, c') =>
    let ru := fetch_attempt_loop retries url site net parse now elapsed
    (ru.1, (if ru.1.success then cache_set c' url ru.1 now else c', ru.2))

/-! ### The orchestrator (`fetch_properties_concurrent`) -/

/-- One (site, url) fetch task, as produced by the external URL builder
(the further dict keys — page, filters, suburb — are not read by the
orchestrator). -/
structure UrlData where
  site : String
  url : String
deriving DecidableEq, Inhabited

/-- `SiteConfig` (fetcher dataclass); the `headers` dict is opaque request
metadata and is not modelled. -/
structure SiteConfig where
  name : String
  base_domain : String
  rate_limit_delay : ℚ
  max_concurrent : ℕ
  timeout : ℕ
  retry_attempts : ℕ
  parser_class : String
deriving DecidableEq, Inhabited

/-- `self.site_configs`: the three configured sites. -/
def siteConfigs : List (String × SiteConfig) :=
  [(("realestate.com.au"),
    ⟨("realestate.com.au"), ("realestate.com.au"), 2, 3, 30, 3, ("RealEstate")⟩),
   (("domain.com.au"),
    ⟨("domain.com.au"), ("domain.com.au"), 3/2, 4, 25, 3, ("Domain")⟩),
   (("rent.com.au"),
    ⟨("rent.com.au"), ("rent.com.au"), 1, 5, 20, 2, ("Rent")⟩)]

/-- `_fetch_site_urls`: fetch the site's urls one after the other (the
per-site loop awaits each task in turn and appends exactly one result per
url), threading the shared cache.  The network oracle is keyed by url, the
parser oracle by site. -/
def fetch_site_urls (ttl : ℚ) (cfg : SiteConfig) (site : String)
    (now : ℚ) (net : String → ℕ → NetOutcome)
    (parse : String → String → List Property) (elapsed : ℕ → ℕ) :
    List UrlData → FetchCache → List FetchResult × FetchCache
  | [], c => ([], c)
  | u :: rest, c =>
    let r := fetch_single_property_page ttl c now u.url site
      cfg.retry_attempts (net u.url) (parse site) elapsed
    let t := fetch_site_urls ttl cfg site now net parse elapsed rest r.2.1
    (r.1 :: t.1, t.2)

/-- The distinct sites of a task list, in first-occurrence order (the key
order of the `urls_by_site` dict). -/
def siteKeys : List UrlData → List String
  | [] => []
  | t :: ts => t.site :: (siteKeys ts).filter (fun s => s != t.site)

/-- The `urls_by_site` dict: each site with its tasks in submission order. -/
def groupBySite (ts : List UrlData) : List (String × List UrlData) :=
  (siteKeys ts).map (fun s => (s, ts.filter (fun t => t.site == s)))

/-- The per-site dispatch loop of `fetch_properties_concurrent`: a group
whose site has an entry in `site_configs` contributes its result list; a
group with an unconfigured site is skipped entirely. -/
def fetch_groups_go (ttl : ℚ) (now : ℚ) (net : String → ℕ → NetOutcome)
    (parse : String → String → List Property) (elapsed : ℕ → ℕ) :
    List (String × List UrlData) → FetchCache → List FetchResult × FetchCache
  | [], c => ([], c)
  | g :: rest, c =>
    match siteConfigs.lookup g.1 with
    | some cfg =>
      let r := fetch_site_urls ttl cfg g.1 now net parse elapsed g.2 c
      let t := fetch_groups_go ttl now net parse elapsed rest r.2
      (r.1 ++ t.1, t.2)
    | none => fetch_groups_go ttl now net parse elapsed rest c

/-- `fetch_properties_concurrent`: clear expired cache entries, group tasks
by site, fetch each *configured* site's group (a task whose site has no
entry in `site_configs` is dropped), and concatenate the per-site result
lists. -/
def fetch_properties_concurrent (ttl : ℚ) (c : FetchCache) (now : ℚ)
    (tasks : List UrlData) (net : String → ℕ → NetOutcome)
    (parse : String → String → List Property) (elapsed : ℕ → ℕ) :
    List FetchResult × FetchCache :=
  fetch_groups_go ttl now net parse elapsed (groupBySite tasks)
    (cache_clear_expired c ttl now)

/-! ### Ranking engine (`app/services/recommendation_service.py`)

`PropertyModel` is the pydantic model of
`app/api/api_v1/endpoints/properties.py`; only the fields the
recommendation service reads or copies are modelled (the `agent`,
`images`, `description`, … fields are carried opaquely by the service and
elided here).  The freshness sub-score depends on `datetime.now()` and ISO
parsing of `scraped_at`; this is an oracle `clock : String → Option ℤ`
giving the age in days, `none` when parsing fails. -/

structure PropertyModel where
  id : String
  title : String
  price : String
  location : String
  bedrooms : Option ℤ
  bathrooms : Option ℤ
  parking : Option ℤ
  property_type : String
  features : List String
  url : String
  scraped_at : String
deriving DecidableEq, Inhabited

/-- The normalized query dict produced by `build_query_from_request`. -/
structure Query where
  suburb : String
  listingType : String
  propertyType : String
  beds_min : Option ℤ
  baths_min : Option ℤ
  pmin : Option ℤ
  pmax : Option ℤ
  unit : String
  must_park : Bool
  pets_req : Bool
deriving DecidableEq, Inhabited

/-- `_clamp01`. -/
def clamp01 (v : ℚ) : ℚ := max 0 (min 1 v)

/-- The scan of `re.search(r'\$?(\d+)', s)`: the first position where an
optional `$` is followed by a digit; group 1 is the maximal digit run. -/
def weekPriceScan : List Char → Option (List Char)
  | [] => none
  | c :: t =>
    if c.isDigit then some ((c :: t).takeWhile Char.isDigit)
    else if c == ('$') then
      match t with
      | d :: _ => if d.isDigit then some (t.takeWhile Char.isDigit) else weekPriceScan t
      | [] => none
    else weekPriceScan t

/-- `_extract_price_per_week`. -/
def extract_price_per_week (price_str : String) : Option ℚ :=
  if price_str == ("") then none
  else
    match weekPriceScan price_str.toList with
    | some ds => some (digitsVal ds)
    | none => none

/-- `_score_price_user`. -/
def score_price_user (price_pw : Option ℚ) (pmin pmax : Option ℤ) : ℚ :=
  match price_pw, pmin, pmax with
  | some p, some a, some b =>
    let center : ℚ := ((a : ℚ) + b) / 2
    let half : ℚ := ((b : ℚ) - a) / 2
    let scale : ℚ := max 30 (if half = 0 then 30 else half)
    clamp01 (1 - qAbs (p - center) / scale)
  | _, _, _ => 3/10

/-- `_score_bedrooms`. -/
def score_bedrooms (bedrooms beds_min : Option ℤ) : ℚ :=
  match beds_min with
  | none =>
    match bedrooms with
    | none => 7/10
    | some b => 7/10 + (15/100) * (min (b : ℚ) 2) / 2
  | some m =>
    match bedrooms with
    | none => 0
    | some b =>
      if b < m then 0
      else if b - m = 0 then 1
      else if b - m = 1 then 8/10
      else if b - m = 2 then 6/10
      else 1/2

/-- `_score_bathrooms`. -/
def score_bathrooms (bathrooms baths_min : Option ℤ) : ℚ :=
  match baths_min with
  | none =>
    match bathrooms with
    | none => 7/10
    | some b => min 1 (7/10 + (3/10) * (min (b : ℚ) 2) / 2)
  | some m =>
    match bathrooms with
    | none => 0
    | some b =>
      if b < m then 0
      else if b - m = 0 then 1
      else if b - m = 1 then 8/10
      else if b - m = 2 then 6/10
      else 1/2

/-- `self.similar_types`. -/
def similarTypes : List String := [("apartment"), ("unit"), ("flat")]

/-- `_score_property_type`. -/
def score_property_type (prop_type want_type : String) : ℚ :=
  if want_type == ("") then 7/10
  else if prop_type == want_type then 1
  else if similarTypes.contains prop_type && similarTypes.contains want_type then 7/10
  else 1/5

/-- `_score_price_area`. -/
def score_price_area (price_pw area_min area_max : Option ℚ) : ℚ :=
  match price_pw, area_min, area_max with
  | some p, some amin, some amax =>
    if amin ≥ amax then 1/2
    else if amin ≤ p ∧ p ≤ amax then
      let rel := (p - amin) / (amax - amin + 1/1000000000)
      clamp01 (1 - (6/10) * qAbs (rel - 4/10))
    else
      let over := if p < amin then amin - p else p - amax
      let scale := max 50 ((amax - amin) / 3)
      clamp01 (1 - over / scale)
  | _, _, _ => 1/2

/-- `isinstance(parking, int) and parking > 0`. -/
def hasParking : Option ℤ → Bool
  | none => false
  | some k => decide (k > 0)

/-- `_score_parking`. -/
def score_parking (parking : Option ℤ) (must_park : Bool) : ℚ :=
  if must_park then (if hasParking parking then 1 else 0)
  else (if hasParking parking then 1 else 7/10)

/-- The `bonus_features` list of `_score_features`. -/
def bonusFeatures : List String :=
  [("air conditioning"), ("balcony"), ("furnished"), ("dishwasher"), ("gym"), ("pool")]

/-- Python `' '.join(l)`. -/
def joinSpace : List String → String
  | [] => ("")
  | [s] => s
  | s :: t => s ++ (" ") ++ joinSpace t

/-- `_score_features`. -/
def score_features (features : List String) : ℚ :=
  if features.isEmpty then 0
  else
    let feature_text := pyLower (joinSpace features)
    min 1 (bonusFeatures.foldl
      (fun s f => if strIn f feature_text then s + 1/5 else s) 0)

/-- `_score_freshness`, with the parse-and-clock oracle. -/
def score_freshness (clock : String → Option ℤ) (scraped_at : String) : ℚ :=
  if scraped_at == ("") then 7/10
  else
    match clock scraped_at with
    | none => 7/10
    | some days =>
      if days ≤ 7 then 1
      else if days ≤ 30 then 85/100
      else if days ≤ 90 then 6/10
      else 4/10

/-- Python `round(x, 2)` (ties to even). -/
def round2 (q : ℚ) : ℚ := (roundHalfEven (q * 100) : ℚ) / 100

/-- The `subscores` dict of the recommendation record. -/
structure SubScores where
  price_user : ℚ
  area : ℚ
  beds : ℚ
  baths : ℚ
  ptype : ℚ
  price_area : ℚ
  parking : ℚ
  features : ℚ
  fresh : ℚ
deriving DecidableEq, Inhabited

/-- The recommendation dict built by `_calculate_score` (the pipeline's
`RankedProperty`). -/
structure RankedRec where
  id : String
  score : ℚ
  price_pw : Option ℚ
  bedrooms : Option ℤ
  bathrooms : Option ℤ
  parking : Option ℤ
  propertyType : String
  address : String
  title : String
  url : String
  features : List String
  subscores : SubScores
deriving DecidableEq, Inhabited

/-- `_calculate_score` (the `try` never fails in the pure model, so the
result is always present). -/
def calculate_score (clock : String → Option ℤ) (prop : PropertyModel)
    (query : Query) (area_min area_max : Option ℚ) : RankedRec :=
  let price_pw := extract_price_per_week prop.price
  let prop_type := pyLower prop.property_type
  let sPriceU := score_price_user price_pw query.pmin query.pmax
  let sArea : ℚ := 1
  let sBeds := score_bedrooms prop.bedrooms query.beds_min
  let sBaths := score_bathrooms prop.bathrooms query.baths_min
  let sPtype := score_property_type prop_type query.propertyType
  let sPriceA := score_price_area price_pw area_min area_max
  let sPark := score_parking prop.parking query.must_park
  let sFeat := score_features prop.features
  let sFresh := score_freshness clock prop.scraped_at
  let total := 100 * ((34/100) * sPriceU + (22/100) * sArea + (14/100) * sBeds
    + (8/100) * sBaths + (6/100) * sPtype + (8/100) * sPriceA
    + (5/100) * sPark + (2/100) * sFeat + (1/100) * sFresh)
  { id := prop.id
    score := round2 total
    price_pw := price_pw
    bedrooms := prop.bedrooms
    bathrooms := prop.bathrooms
    parking := prop.parking
    propertyType := prop_type
    address := prop.location
    title := prop.title
    url := prop.url
    features := prop.features
    subscores :=
      ⟨round2 (100 * (34/100) * sPriceU), round2 (100 * (22/100) * sArea),
       round2 (100 * (14/100) * sBeds), round2 (100 * (8/100) * sBaths),
       round2 (100 * (6/100) * sPtype), round2 (100 * (8/100) * sPriceA),
       round2 (100 * (5/100) * sPark), round2 (100 * (2/100) * sFeat),
       round2 (100 * (1/100) * sFresh)⟩ }

/-- `_passes_hard_filters`. -/
def passes_hard_filters (prop : PropertyModel) (query : Query) : Bool :=
  let prop_location := pyLower (pyStrip prop.location)
  let query_location := pyLower (pyStrip query.suburb)
  if query_location != ("") && !(strIn query_location prop_location) then false
  else if (match query.beds_min with
    | some m => (match prop.bedrooms with | none => true | some b => decide (b < m))
    | none => false) then false
  else if (match query.baths_min with
    | some m => (match prop.bathrooms with | none => true | some b => decide (b < m))
    | none => false) then false
  else if query.must_park && !hasParking prop.parking then false
  else true

/-- `_price_delta_to_user` (`1e9` when the budget or the price is
missing). -/
def price_delta_to_user (rec : RankedRec) (query : Query) : ℚ :=
  match query.pmin, query.pmax, rec.price_pw with
  | some a, some b, some p => qAbs (p - ((a : ℚ) + b) / 2)
  | _, _, _ => 1000000000

/-- The third sort-key component `x.get('price_pw') or float('inf')`:
`None` *and* `0.0` are falsy and become `+inf`, modelled as `none`. -/
def sortPriceVal (rec : RankedRec) : Option ℚ :=
  match rec.price_pw with
  | some p => if p = 0 then none else some p
  | none => none

/-- Order on the third key component, `none` playing `+inf`. -/
def optLeInf : Option ℚ → Option ℚ → Bool
  | _, none => true
  | none, some _ => false
  | some a, some b => decide (a ≤ b)

/-- The comparison induced by the Python sort key
`(-score, price_delta, price_value)`. -/
def sortLe (query : Query) (x y : RankedRec) : Bool :=
  if x.score > y.score then true
  else if y.score > x.score then false
  else
    let dx := price_delta_to_user x query
    let dy := price_delta_to_user y query
    if dx < dy then true
    else if dy < dx then false
    else optLeInf (sortPriceVal x) (sortPriceVal y)

/-- The sort relation as a `Prop`, for `List.insertionSort`. -/
def sortRel (query : Query) (x y : RankedRec) : Prop := sortLe query x y = true

instance (query : Query) : DecidableRel (sortRel query) :=
  fun x y => inferInstanceAs (Decidable (sortLe query x y = true))

/-- Minimum of a price list (Python `min`), `none` on the empty list. -/
def listMinQ : List ℚ → Option ℚ
  | [] => none
  | x :: t => some (t.foldl min x)

/-- Maximum of a price list (Python `max`), `none` on the empty list. -/
def listMaxQ : List ℚ → Option ℚ
  | [] => none
  | x :: t => some (t.foldl max x)

/-- `recommend_properties`: compute the in-set price range, drop records
failing a hard filter, score the rest, sort by
`(-score, price_delta, price_value)` (Python's stable sort; a stable sort's
output is unique, so stable insertion sort is the same list) and return the
first `topk`. -/
def recommend_properties (clock : String → Option ℤ)
    (properties : List PropertyModel) (query : Query) (topk : ℕ) :
    List RankedRec :=
  if properties.isEmpty then []
  else
    let area_prices := properties.filterMap (fun p => extract_price_per_week p.price)
    let area_min := listMinQ area_prices
    let area_max := listMaxQ area_prices
    let recommendations :=
      (properties.filter (fun p => passes_hard_filters p query)).map
        (fun p => calculate_score clock p query area_min area_max)
    (recommendations.insertionSort (sortRel query)).take topk

/-! ### Object-heap model of the deduplicator (frame property)

To express that `deduplicate_properties` never mutates its *input* records,
we re-run the same code over an explicit heap of `Property` objects.  A
reference is an index into the heap; the input records occupy cells
`0 .. n-1`; every `Property(...)` constructor call allocates a fresh cell,
and every Python field assignment becomes a write to the cell it targets.
The standardization change counters are plain integers (no object state)
and are omitted here. -/

/-- The object heap. -/
abbrev Heap := List Property

/-- Read the object a reference points to. -/
def hRead (h : Heap) (r : ℕ) : Property := h.getD r default

/-- A field assignment on the object at `r`. -/
def hWrite (h : Heap) (r : ℕ) (p : Property) : Heap := h.set r p

/-- Allocate a fresh object, returning its reference. -/
def hAlloc (h : Heap) (p : Property) : Heap × ℕ := (h ++ [p], h.length)

/-- `_standardize_property` on the heap: allocate the copy (running
`__post_init__`), then perform the four field assignments on the copy. -/
def standardizeRef (h : Heap) (r : ℕ) : Heap × ℕ :=
  let p := hRead h r
  let al := hAlloc h (mkProperty p.address p.suburb p.price p.price_numeric
    p.bedrooms p.bathrooms p.parking p.property_type p.link)
  let h1 := al.1
  let s := al.2
  let h2 := hWrite h1 s
    { hRead h1 s with address := standardize_address (hRead h1 s).address }
  let h3 := hWrite h2 s
    { hRead h2 s with property_type := standardize_property_type (hRead h2 s).property_type }
  let pr := standardize_price (hRead h3 s).price (hRead h3 s).price_numeric
  let h4 := hWrite h3 s { hRead h3 s with price := pr.1, price_numeric := pr.2 }
  let h5 := hWrite h4 s { hRead h4 s with suburb := standardize_suburb (hRead h4 s).suburb }
  (h5, s)

/-- The price-preference loop of `_merge_properties` on the heap: writes
only the merged object `m`. -/
def mergePriceLoopRef (h : Heap) (m : ℕ) : List ℕ → Heap
  | [] => h
  | r :: rest =>
    if truthyQ (hRead h r).price_numeric && !truthyQ (hRead h m).price_numeric then
      hWrite h m { hRead h m with price := (hRead h r).price,
                                  price_numeric := (hRead h r).price_numeric }
    else mergePriceLoopRef h m rest

/-- The most-complete-address loop of `_merge_properties` on the heap:
writes only the merged object `m`. -/
def mergeAddrFoldRef (m : ℕ) (rs : List ℕ) (h : Heap) : Heap :=
  rs.foldl
    (fun hh r =>
      if (hRead hh r).address.length > (hRead hh m).address.length then
        hWrite hh m { hRead hh m with address := (hRead hh r).address }
      else hh) h

/-- The property-type specificity loop of `_merge_properties` on the heap:
writes only the merged object `m`. -/
def mergeTypeFoldRef (m : ℕ) (rs : List ℕ) (h : Heap) : Heap :=
  rs.foldl
    (fun hh r =>
      if typePriority (hRead hh r).property_type > typePriority (hRead hh m).property_type then
        hWrite hh m { hRead hh m with property_type := (hRead hh r).property_type }
      else hh) h

/-- `_merge_properties` on the heap: a single-member group is returned as
is (the Python `return properties[0]`), otherwise a fresh merged object is
allocated and mutated. -/
def mergeRefs (h : Heap) : List ℕ → Heap × ℕ
  | [] => (h, 0)
  | [r] => (h, r)
  | r0 :: rest =>
    let p0 := hRead h r0
    let al := hAlloc h (mkProperty p0.address p0.suburb p0.price p0.price_numeric
      p0.bedrooms p0.bathrooms p0.parking p0.property_type p0.link)
    let h1 := al.1
    let m := al.2
    let all_links := (r0 :: rest).filterMap
      (fun r => if (hRead h1 r).link == ("") then none else some (hRead h1 r).link)
    let h2 := mergePriceLoopRef h1 m (r0 :: rest)
    let h3 := mergeAddrFoldRef m (r0 :: rest) h2
    let h4 := mergeTypeFoldRef m (r0 :: rest) h3
    let best := all_links.foldl (fun acc l => linkScan acc l linkPriority)
      ((hRead h4 m).link, 0)
    (hWrite h4 m { hRead h4 m with link := best.1 }, m)

/-- The inner match-collection loop on the heap (pure reads). -/
def collectMatchesRef (cfg : DedupConfig) (h : Heap) (std : List ℕ) (i : ℕ)
    (processed : List ℕ) : List ℕ :=
  (List.range' (i + 1) (std.length - (i + 1))).filterMap
    (fun j =>
      if j ∈ processed then none
      else
        match compare_properties cfg (hRead h (std.getD i 0)) (hRead h (std.getD j 0)) with
        | some _ => some j
        | none => none)

/-- The outer dedup loop on the heap; returns the final heap and the
references of the unique records. -/
def dedupGoRef (cfg : DedupConfig) (std : List ℕ) :
    ℕ → ℕ → List ℕ → Heap → Heap × List ℕ
  | 0, _, _, h => (h, [])
  | fuel + 1, i, processed, h =>
    if i < std.length then
      if i ∈ processed then dedupGoRef cfg std fuel (i + 1) processed h
      else
        let cm := collectMatchesRef cfg h std i processed
        if cm.isEmpty then
          let r := dedupGoRef cfg std fuel (i + 1) (processed ++ [i]) h
          (r.1, std.getD i 0 :: r.2)
        else
          let mg := mergeRefs h (std.getD i 0 :: cm.map (fun j => std.getD j 0))
          let r := dedupGoRef cfg std fuel (i + 1) (processed ++ i :: cm) mg.1
          (r.1, mg.2 :: r.2)
    else (h, [])

/-- Standardize the input references in order, allocating one copy each. -/
def standardizeAllRef : List ℕ → Heap → Heap × List ℕ
  | [], h => (h, [])
  | r :: rest, h =>
    let s := standardizeRef h r
    let t := standardizeAllRef rest s.1
    (t.1, s.2 :: t.2)

/-- `deduplicate_properties` on the heap: the caller's records are the
cells `0 .. props.length - 1`; returns the final heap and the references
of the unique records. -/
def deduplicateRef (cfg : DedupConfig) (props : List Property) : Heap × List ℕ :=
  let h0 : Heap := props
  let st := standardizeAllRef (List.range props.length) h0
  dedupGoRef cfg st.2 st.2.length 0 [] st.1

/-! ### Concrete fixtures for counterexamples and witnesses -/

/-- A family of records identical except for the bedroom count: same suburb,
no address, no numeric price.  With the default config, two members match
exactly when their bedroom counts differ by at most one (price and suburb
criteria fire; the features criterion fires only for a ±1 difference, and
the composite score drops below the 0.4 threshold without it). -/
def chainProp (bed : ℤ) : Property :=
  mkProperty ("") ("Bondi") ("") none bed 1 1 ("") ("")

/-- A record that matches nothing in `{distinctProp2}`: different suburb,
features all two apart, prices 100 vs 200 (far outside tolerance). -/
def distinctProp1 : Property :=
  mkProperty ("") ("Bondi") ("$100") (some 100) 2 1 1 ("") ("")

/-- See `distinctProp1`. -/
def distinctProp2 : Property :=
  mkProperty ("") ("Chatswood") ("$200") (some 200) 4 3 3 ("") ("")

/-- A record whose numeric price is present but `0.0` — non-null yet falsy
in Python. -/
def zeroPriceProp : Property :=
  mkProperty ("A Street") ("S") ("$0") (some 0) 1 1 1 ("") ("")

/-- A record with no numeric price. -/
def nullPriceProp : Property :=
  mkProperty ("B Road") ("S") ("Contact Agent") none 1 1 1 ("") ("")

/-- A record with a positive numeric price. -/
def posPriceProp : Property :=
  mkProperty ("C Avenue") ("S") ("$500") (some 500) 1 1 1 ("") ("")

/-- Network oracle: 429 on the first attempt, 200 afterwards. -/
def netRateLimitedThen200 : ℕ → NetOutcome :=
  fun n => if n = 0 then NetOutcome.status 429 ("") else NetOutcome.status 200 ("ok")

/-- Network oracle: 400 on the first attempt, 200 afterwards. -/
def netBadRequestThen200 : ℕ → NetOutcome :=
  fun n => if n = 0 then NetOutcome.status 400 ("") else NetOutcome.status 200 ("ok")

/-- Network oracle: always 403. -/
def net403 : ℕ → NetOutcome := fun _ => NetOutcome.status 403 ("")

/-- Network oracle: always 404. -/
def net404 : ℕ → NetOutcome := fun _ => NetOutcome.status 404 ("")

/-- Network oracle: always 200. -/
def netOk : ℕ → NetOutcome := fun _ => NetOutcome.status 200 ("b")

/-- Parser oracle returning no records. -/
def noParse : String → List Property := fun _ => []

/-- Elapsed-time oracle. -/
def zeroMs : ℕ → ℕ := fun _ => 0

/-- A task whose site has no entry in `site_configs`. -/
def unknownSiteTask : UrlData := ⟨("unknown.example"), ("http://u")⟩

/-- Per-site network oracle for orchestrator runs: everything times out. -/
def netBySite : String → ℕ → NetOutcome := fun _ _ => NetOutcome.timeout

/-- Per-site parser oracle. -/
def parseBySite : String → String → List Property := fun _ _ => []

/-- The first fetch of the cache scenario: empty cache, time 0, one retry,
a 200 response. -/
def c8first : FetchResult × FetchCache × ℕ :=
  fetch_single_property_page 30 [] 0 ("u") ("s") 1 netOk noParse zeroMs

/-- A listing that passes every hard filter of `bondiQuery`. -/
def bondiProp : PropertyModel :=
  ⟨("p1"), ("Nice apartment"), ("$650 per week"), ("Bondi Beach NSW"),
   some 3, some 2, some 1, ("Apartment"), [("Balcony")], ("http://x"), ("")⟩

/-- A query with every hard filter specified. -/
def bondiQuery : Query :=
  ⟨("bondi"), ("rent"), ("apartment"), some 2, some 1, some 600, some 700,
   ("per_week"), true, false⟩

/-- Freshness oracle: parsing always fails (neutral default). -/
def noneClock : String → Option ℤ := fun _ => none

/-! ## Theorems -/

/-! ### Deduplicator: grouping, cardinality, merge -/

theorem dedupGo_length_le (cfg : DedupConfig) (std : List Property) :
    ∀ (fuel i : ℕ) (processed : List ℕ),
    (dedupGo cfg std fuel i processed).1.length ≤ fuel := by
  intro fuel
  induction fuel with
  | zero => intro i processed; simp [dedupGo]
  | succ n ih =>
    intro i processed
    simp only [dedupGo]
    split
    · split
      · exact le_trans (ih _ _) (Nat.le_succ n)
      · split
        · simpa using Nat.succ_le_succ (ih _ _)
        · simpa using Nat.succ_le_succ (ih _ _)
    · simp

theorem collectMatches_eq_nil (cfg : DedupConfig) (std : List Property)
    (i : ℕ) (processed : List ℕ)
    (h : ∀ j, i < j → j < std.length →
      compare_properties cfg (std.getD i default) (std.getD j default) = none) :
    collectMatches cfg std i processed = [] := by
  unfold collectMatches
  rw [List.filterMap_eq_nil_iff]
  intro j hj
  obtain ⟨hj1, hj2⟩ := List.mem_range'_1.mp hj
  split
  · rfl
  · rw [h j (by omega) (by omega)]; rfl

theorem dedupGo_length_eq (cfg : DedupConfig) (std : List Property)
    (hnone : ∀ i j, i < j → j < std.length →
      compare_properties cfg (std.getD i default) (std.getD j default) = none) :
    ∀ (fuel i : ℕ) (processed : List ℕ), fuel = std.length - i →
    (∀ j ∈ processed, j < i) →
    (dedupGo cfg std fuel i processed).1.length = fuel := by
  intro fuel
  induction fuel with
  | zero => intro i processed _ _; simp [dedupGo]
  | succ n ih =>
    intro i processed hfuel hproc
    have hi : i < std.length := by omega
    have hip : i ∉ processed := fun hmem => absurd (hproc i hmem) (Nat.lt_irrefl i)
    simp only [dedupGo, if_pos hi, if_neg hip]
    rw [collectMatches_eq_nil cfg std i processed (fun j h1 h2 => hnone i j h1 h2)]
    rw [if_pos (by simp : ([] : List (ℕ × PropertyMatch)).isEmpty = true)]
    simp only [List.length_cons]
    rw [ih (i + 1) (processed ++ [i]) (by omega)]
    intro j hj
    rcases List.mem_append.mp hj with hj | hj
    · exact Nat.lt_succ_of_lt (hproc j hj)
    · simp at hj; omega

/-- C6.  For every input list, the deduplicator returns at most as many
unique records as it was given; and when no two (standardized) records
satisfy the pairwise match criteria, it returns exactly as many. -/
theorem claim_C6_dedup_cardinality (cfg : DedupConfig) (props : List Property) :
    (deduplicate_properties cfg props).unique_properties.length ≤ props.length
    ∧ (List.Pairwise (fun p q => compare_properties cfg p q = none)
        (props.map (fun p => (standardize_property p).1)) →
      (deduplicate_properties cfg props).unique_properties.length = props.length) := by
  constructor
  · have h := dedupGo_length_le cfg
      ((props.map standardize_property).map Prod.fst)
      ((props.map standardize_property).map Prod.fst).length 0 []
    simpa [deduplicate_properties] using h
  · intro hpw
    have hlen : ((props.map standardize_property).map Prod.fst).length = props.length := by
      simp
    have heq : (props.map standardize_property).map Prod.fst
        = props.map (fun p => (standardize_property p).1) := by
      simp
    have hnone : ∀ i j, i < j →
        j < ((props.map standardize_property).map Prod.fst).length →
        compare_properties cfg
          (((props.map standardize_property).map Prod.fst).getD i default)
          (((props.map standardize_property).map Prod.fst).getD j default) = none := by
      intro i j hij hj
      rw [heq] at hj ⊢
      rw [List.getD_eq_getElem _ _ (by omega), List.getD_eq_getElem _ _ hj]
      exact List.pairwise_iff_getElem.mp hpw i j (by omega) (by simpa using hj) hij
    have h := dedupGo_length_eq cfg ((props.map standardize_property).map Prod.fst)
      hnone ((props.map standardize_property).map Prod.fst).length 0 [] (by omega)
      (by intro j hj; simp at hj)
    simpa [deduplicate_properties, hlen] using h

/-- Witness for C6 at a two-record input in which no pair matches. -/
theorem claim_C6_dedup_cardinality_witness :
    (deduplicate_properties defaultDedupConfig [distinctProp1, distinctProp2]).unique_properties.length = 2 :=
  (claim_C6_dedup_cardinality defaultDedupConfig [distinctProp1, distinctProp2]).2
    (by with_unfolding_all decide)

/-- C2 counterexample.  With the default config, `chainProp 2` matches
`chainProp 3` and `chainProp 3` matches `chainProp 4` under the pairwise
criteria, while `chainProp 2` does not match `chainProp 4`; the claim then
requires all three to merge into one group, but the deduplicator returns
two records: the group around the pivot `chainProp 2` only collects direct
matches of the pivot, so `chainProp 4` stays separate. -/
theorem claim_C2_counterexample :
    (compare_properties defaultDedupConfig (standardize_property (chainProp 2)).1
      (standardize_property (chainProp 3)).1).isSome = true
    ∧ (compare_properties defaultDedupConfig (standardize_property (chainProp 3)).1
      (standardize_property (chainProp 4)).1).isSome = true
    ∧ compare_properties defaultDedupConfig (standardize_property (chainProp 2)).1
      (standardize_property (chainProp 4)).1 = none
    ∧ (deduplicate_properties defaultDedupConfig
        [chainProp 2, chainProp 3, chainProp 4]).unique_properties.length = 2 := by
  with_unfolding_all decide

/-- C2 as amended: grouping is single-link around the earliest pivot.  If
the pivot record directly matches both other records, all three do merge
into one group. -/
theorem claim_C2_pivot_grouping (cfg : DedupConfig) (a b c : Property)
    (hab : (compare_properties cfg (standardize_property a).1
      (standardize_property b).1).isSome = true)
    (hac : (compare_properties cfg (standardize_property a).1
      (standardize_property c).1).isSome = true) :
    (deduplicate_properties cfg [a, b, c]).unique_properties.length = 1 := by
  obtain ⟨mab, hmab⟩ := Option.isSome_iff_exists.mp hab
  obtain ⟨mac, hmac⟩ := Option.isSome_iff_exists.mp hac
  simp [deduplicate_properties, dedupGo, collectMatches, List.range',
    List.getD, hmab, hmac]

/-- Witness for the amended C2 at a pivot matching both later records. -/
theorem claim_C2_pivot_grouping_witness :
    (deduplicate_properties defaultDedupConfig
      [chainProp 3, chainProp 2, chainProp 4]).unique_properties.length = 1 :=
  claim_C2_pivot_grouping defaultDedupConfig (chainProp 3) (chainProp 2) (chainProp 4)
    (by with_unfolding_all decide) (by with_unfolding_all decide)

theorem mergePriceLoop_truthy (l : List Property) :
    ∀ (m : Property),
    (truthyQ m.price_numeric = true ∨ ∃ p ∈ l, truthyQ p.price_numeric = true) →
    truthyQ (mergePriceLoop m l).price_numeric = true := by
  induction l with
  | nil =>
    intro m h
    rcases h with h | ⟨p, hp, _⟩
    · simpa [mergePriceLoop] using h
    · simp at hp
  | cons p rest ih =>
    intro m h
    simp only [mergePriceLoop]
    split
    · rename_i hcond
      rw [Bool.and_eq_true] at hcond
      simpa using hcond.1
    · rename_i hcond
      apply ih
      rcases h with h | ⟨q, hq, hqt⟩
      · left; exact h
      · rcases List.mem_cons.mp hq with rfl | hq'
        · left
          cases hm : truthyQ m.price_numeric
          · exact absurd (by simp [hqt, hm]) hcond
          · rfl
        · right; exact ⟨q, hq', hqt⟩

theorem mergeAddrFold_pn (l : List Property) :
    ∀ (m : Property),
    (l.foldl (fun m p =>
      if p.address.length > m.address.length then { m with address := p.address } else m)
      m).price_numeric = m.price_numeric := by
  induction l with
  | nil => intro m; rfl
  | cons p rest ih =>
    intro m
    simp only [List.foldl_cons]
    split <;> simp [ih]

theorem mergeTypeFold_pn (l : List Property) :
    ∀ (m : Property),
    (l.foldl (fun m p =>
      if typePriority p.property_type > typePriority m.property_type then
        { m with property_type := p.property_type } else m)
      m).price_numeric = m.price_numeric := by
  induction l with
  | nil => intro m; rfl
  | cons p rest ih =>
    intro m
    simp only [List.foldl_cons]
    split <;> simp [ih]

/-- C7 counterexample.  `zeroPriceProp.price_numeric = 0.0` is non-null,
yet merging it with a record of null numeric price yields a canonical
record with a null numeric price: Python's truthiness test
`if prop.price_numeric` rejects `0.0`. -/
theorem claim_C7_counterexample :
    nullPriceProp.price_numeric = none
    ∧ zeroPriceProp.price_numeric ≠ none
    ∧ (merge_properties [nullPriceProp, zeroPriceProp]).price_numeric = none := by
  refine ⟨rfl, by simp [zeroPriceProp, mkProperty], ?_⟩
  with_unfolding_all decide

/-- C7 as amended: if some record in the merged group has a non-null and
non-zero numeric price, the merged canonical record has a non-null numeric
price. -/
theorem claim_C7_merge_price (props : List Property)
    (h : ∃ p ∈ props, ∃ x, p.price_numeric = some x ∧ x ≠ 0) :
    (merge_properties props).price_numeric ≠ none := by
  have htr : ∃ p ∈ props, truthyQ p.price_numeric = true := by
    obtain ⟨p, hp, x, hx, hx0⟩ := h
    exact ⟨p, hp, by simp [truthyQ, hx, hx0]⟩
  have key : ∀ (q : Property), truthyQ q.price_numeric = true → q.price_numeric ≠ none := by
    intro q hq hn
    rw [hn] at hq
    simp [truthyQ] at hq
  match props with
  | [] => simp at htr
  | [p] =>
    obtain ⟨q, hq, hqt⟩ := htr
    rcases List.mem_singleton.mp hq with rfl
    simpa [merge_properties] using key q hqt
  | p0 :: p1 :: rest =>
    simp only [merge_properties]
    apply key
    simp only [mergeAddrFold_pn, mergeTypeFold_pn]
    apply mergePriceLoop_truthy
    right
    exact htr

/-- Witness for the amended C7: a null-priced record merged with a
positively-priced one keeps a numeric price. -/
theorem claim_C7_merge_price_witness :
    (merge_properties [nullPriceProp, posPriceProp]).price_numeric ≠ none :=
  claim_C7_merge_price [nullPriceProp, posPriceProp]
    ⟨posPriceProp, by simp, 500, rfl, by norm_num⟩

/-! ### Deduplicator frame property (heap model) -/

theorem take_set_of_le {α : Type} :
    ∀ (l : List α) (r n : ℕ) (a : α), n ≤ r → (l.set r a).take n = l.take n := by
  intro l
  induction l with
  | nil => simp
  | cons x t ih =>
    intro r n a hn
    cases r with
    | zero =>
      have : n = 0 := Nat.le_zero.mp hn
      simp [this]
    | succ r' =>
      cases n with
      | zero => simp
      | succ n' =>
        simp only [List.set, List.take]
        rw [ih r' n' a (by omega)]

theorem standardizeRef_frame (h : Heap) (r n : ℕ) (hn : n ≤ h.length) :
    (standardizeRef h r).1.take n = h.take n
    ∧ (standardizeRef h r).1.length = h.length + 1 := by
  simp only [standardizeRef, hAlloc, hWrite, hRead]
  constructor
  · rw [take_set_of_le _ _ _ _ hn, take_set_of_le _ _ _ _ hn,
      take_set_of_le _ _ _ _ hn, take_set_of_le _ _ _ _ hn,
      List.take_append_of_le_length hn]
  · simp [List.length_set]

theorem mergePriceLoopRef_frame (m : ℕ) :
    ∀ (l : List ℕ) (h : Heap) (n : ℕ), n ≤ m →
    (mergePriceLoopRef h m l).take n = h.take n
    ∧ (mergePriceLoopRef h m l).length = h.length := by
  intro l
  induction l with
  | nil => intro h n _; exact ⟨rfl, rfl⟩
  | cons r rest ih =>
    intro h n hn
    simp only [mergePriceLoopRef]
    split
    · exact ⟨take_set_of_le _ _ _ _ hn, by simp [hWrite, List.length_set]⟩
    · exact ih h n hn

theorem foldl_set_frame {β : Type} (m : ℕ) (step : Heap → β → Heap)
    (hstep : ∀ hh b, step hh b = hh ∨ ∃ p, step hh b = hh.set m p) :
    ∀ (l : List β) (h : Heap) (n : ℕ), n ≤ m →
    (l.foldl step h).take n = h.take n ∧ (l.foldl step h).length = h.length := by
  intro l
  induction l with
  | nil => intro h n _; exact ⟨rfl, rfl⟩
  | cons b rest ih =>
    intro h n hn
    simp only [List.foldl_cons]
    rcases hstep h b with he | ⟨p, he⟩
    · rw [he]; exact ih h n hn
    · rw [he]
      obtain ⟨h1, h2⟩ := ih (h.set m p) n hn
      exact ⟨by rw [h1, take_set_of_le _ _ _ _ hn], by rw [h2, List.length_set]⟩

theorem mergeAddrFoldRef_frame (m : ℕ) :
    ∀ (rs : List ℕ) (h : Heap) (n : ℕ), n ≤ m →
    (mergeAddrFoldRef m rs h).take n = h.take n
    ∧ (mergeAddrFoldRef m rs h).length = h.length := by
  intro rs
  induction rs with
  | nil => intro h n _; exact ⟨rfl, rfl⟩
  | cons r rest ih =>
    intro h n hn
    simp only [mergeAddrFoldRef, List.foldl_cons]
    split
    · obtain ⟨h1, h2⟩ := ih _ n hn
      simp only [mergeAddrFoldRef] at h1 h2
      rw [h1, h2]
      exact ⟨take_set_of_le _ _ _ _ hn, by simp [hWrite, List.length_set]⟩
    · exact ih h n hn

theorem mergeTypeFoldRef_frame (m : ℕ) :
    ∀ (rs : List ℕ) (h : Heap) (n : ℕ), n ≤ m →
    (mergeTypeFoldRef m rs h).take n = h.take n
    ∧ (mergeTypeFoldRef m rs h).length = h.length := by
  intro rs
  induction rs with
  | nil => intro h n _; exact ⟨rfl, rfl⟩
  | cons r rest ih =>
    intro h n hn
    simp only [mergeTypeFoldRef, List.foldl_cons]
    split
    · obtain ⟨h1, h2⟩ := ih _ n hn
      simp only [mergeTypeFoldRef] at h1 h2
      rw [h1, h2]
      exact ⟨take_set_of_le _ _ _ _ hn, by simp [hWrite, List.length_set]⟩
    · exact ih h n hn

theorem mergeRefs_frame (h : Heap) (rs : List ℕ) (n : ℕ) (hn : n ≤ h.length) :
    (mergeRefs h rs).1.take n = h.take n ∧ h.length ≤ (mergeRefs h rs).1.length := by
  match rs with
  | [] => exact ⟨rfl, le_refl _⟩
  | [r] => exact ⟨rfl, le_refl _⟩
  | r0 :: r1 :: rest =>
    simp only [mergeRefs, hAlloc, hWrite]
    constructor
    · rw [take_set_of_le _ _ _ _ hn,
        (mergeTypeFoldRef_frame h.length (r0 :: r1 :: rest) _ n hn).1,
        (mergeAddrFoldRef_frame h.length (r0 :: r1 :: rest) _ n hn).1,
        (mergePriceLoopRef_frame h.length (r0 :: r1 :: rest) _ n hn).1,
        List.take_append_of_le_length hn]
    · rw [List.length_set,
        (mergeTypeFoldRef_frame h.length (r0 :: r1 :: rest) _ n hn).2,
        (mergeAddrFoldRef_frame h.length (r0 :: r1 :: rest) _ n hn).2,
        (mergePriceLoopRef_frame h.length (r0 :: r1 :: rest) _ n hn).2]
      simp

theorem dedupGoRef_frame (cfg : DedupConfig) (std : List ℕ) :
    ∀ (fuel i : ℕ) (processed : List ℕ) (h : Heap) (n : ℕ), n ≤ h.length →
    (dedupGoRef cfg std fuel i processed h).1.take n = h.take n
    ∧ n ≤ (dedupGoRef cfg std fuel i processed h).1.length := by
  intro fuel
  induction fuel with
  | zero => intro i processed h n hn; exact ⟨rfl, hn⟩
  | succ f ih =>
    intro i processed h n hn
    simp only [dedupGoRef]
    split
    · split
      · exact ih (i + 1) processed h n hn
      · split
        · exact ih (i + 1) (processed ++ [i]) h n hn
        · have hm := mergeRefs_frame h
            (std.getD i 0 :: (collectMatchesRef cfg h std i processed).map
              (fun j => std.getD j 0)) n hn
          have hrec := ih (i + 1) (processed ++ i :: collectMatchesRef cfg h std i processed)
            (mergeRefs h (std.getD i 0 :: (collectMatchesRef cfg h std i processed).map
              (fun j => std.getD j 0))).1 n (le_trans hn hm.2)
          exact ⟨hrec.1.trans hm.1, hrec.2⟩
    · exact ⟨rfl, hn⟩

theorem standardizeAllRef_frame :
    ∀ (rs : List ℕ) (h : Heap) (n : ℕ), n ≤ h.length →
    (standardizeAllRef rs h).1.take n = h.take n
    ∧ n ≤ (standardizeAllRef rs h).1.length := by
  intro rs
  induction rs with
  | nil => intro h n hn; exact ⟨rfl, hn⟩
  | cons r rest ih =>
    intro h n hn
    simp only [standardizeAllRef]
    have hs := standardizeRef_frame h r n hn
    have hrec := ih (standardizeRef h r).1 n (by omega)
    exact ⟨hrec.1.trans hs.1, hrec.2⟩

/-- C10.  The deduplicator never mutates its input records: in the
object-heap model, the caller's objects are the heap cells
`0 .. props.length - 1`, and after `deduplicate_properties` runs (with all
of its writes made explicit), that prefix of the heap is unchanged —
standardization and merging write only to freshly allocated copies. -/
theorem claim_C10_no_input_mutation (cfg : DedupConfig) (props : List Property) :
    (deduplicateRef cfg props).1.take props.length = props := by
  unfold deduplicateRef
  have h1 := standardizeAllRef_frame (List.range props.length) props props.length le_rfl
  have h2 := dedupGoRef_frame cfg (standardizeAllRef (List.range props.length) props).2
    (standardizeAllRef (List.range props.length) props).2.length 0 []
    (standardizeAllRef (List.range props.length) props).1 props.length h1.2
  rw [h2.1, h1.1, List.take_length]

/-! ### Fetcher: the FetchResult error invariant (retry loop) -/

theorem msg_ne (a b : String) (ha : a.length ≠ 0) : a ++ b ≠ ("") := by
  intro e
  have hlen := congrArg String.length e
  rw [String.length_append] at hlen
  have h0 : ("" : String).length = 0 := rfl
  omega

theorem finalizeResult_success (retries : ℕ) (res : FetchResult)
    (lastExc : Option String) (used : ℕ) :
    (finalizeResult retries res lastExc used).1.success = res.success := by
  unfold finalizeResult
  split
  · cases lastExc <;> rfl
  · rfl

theorem finalizeResult_error_nonempty (retries : ℕ) (res : FetchResult)
    (lastExc : Option String) (used : ℕ)
    (h2 : ∀ m, res.error = some m → m ≠ ("")) (h3 : res.error ≠ none) :
    ∃ m, (finalizeResult retries res lastExc used).1.error = some m ∧ m ≠ ("") := by
  unfold finalizeResult
  split
  · rename_i hcond
    cases lastExc with
    | some m =>
      refine ⟨_, rfl, ?_⟩
      apply msg_ne
      rw [String.length_append]
      have : ("Failed after ").length = 13 := rfl
      omega
    | none => simp [truthyS] at hcond
  · obtain ⟨m, hm⟩ := Option.ne_none_iff_exists'.mp h3
    exact ⟨m, hm, h2 m hm⟩

theorem attemptGo_failure_error (retries : ℕ) (net : ℕ → NetOutcome)
    (parse : String → List Property) (elapsed : ℕ → ℕ) :
    ∀ (fuel attempt : ℕ) (res : FetchResult) (lastExc : Option String) (used : ℕ),
    (res.error = none → 1 ≤ fuel) →
    (∀ m, res.error = some m → m ≠ ("")) →
    (attemptGo retries net parse elapsed fuel attempt res lastExc used).1.success = false →
    ∃ m, (attemptGo retries net parse elapsed fuel attempt res lastExc used).1.error = some m
      ∧ m ≠ ("") := by
  intro fuel
  induction fuel with
  | zero =>
    intro attempt res lastExc used h1 h2 h3
    simp only [attemptGo] at h3 ⊢
    apply finalizeResult_error_nonempty _ _ _ _ h2
    intro hnone
    exact absurd (h1 hnone) (by omega)
  | succ f ih =>
    intro attempt res lastExc used h1 h2 h3
    cases hnet : net attempt with
    | status c body =>
      simp only [attemptGo, hnet] at h3 ⊢
      by_cases hc200 : c = 200
      · rw [if_pos hc200] at h3
        rw [finalizeResult_success] at h3
        simp at h3
      · rw [if_neg hc200] at h3 ⊢
        by_cases hc429 : c = 429
        · rw [if_pos hc429] at h3 ⊢
          refine ih _ _ _ _ (by simp) ?_ h3
          intro m hm
          rw [Option.some_inj] at hm
          subst hm
          apply msg_ne
          have : ("Rate limited (429) on attempt ").length = 30 := rfl
          omega
        · rw [if_neg hc429] at h3 ⊢
          by_cases hc34 : c = 403 ∨ c = 404
          · rw [if_pos hc34] at h3 ⊢
            refine finalizeResult_error_nonempty _ _ _ _ ?_ (by simp)
            intro m hm
            simp only at hm
            rw [Option.some_inj] at hm
            subst hm
            apply msg_ne
            have : ("Client error ").length = 13 := rfl
            omega
          · rw [if_neg hc34] at h3 ⊢
            refine ih _ _ _ _ (by simp) ?_ h3
            intro m hm
            rw [Option.some_inj] at hm
            subst hm
            apply msg_ne
            rw [String.length_append]
            have : ("HTTP ").length = 5 := rfl
            omega
    | timeout =>
      simp only [attemptGo, hnet] at h3 ⊢
      refine ih _ _ _ _ (by simp) ?_ h3
      intro m hm
      rw [Option.some_inj] at hm
      subst hm
      apply msg_ne
      have : ("Timeout on attempt ").length = 19 := rfl
      omega
    | clientError msg =>
      simp only [attemptGo, hnet] at h3 ⊢
      refine ih _ _ _ _ (by simp) ?_ h3
      intro m hm
      rw [Option.some_inj] at hm
      subst hm
      apply msg_ne
      rw [String.length_append]
      have : ("Client error on attempt ").length = 24 := rfl
      omega
    | failure msg =>
      simp only [attemptGo, hnet] at h3 ⊢
      refine ih _ _ _ _ (by simp) ?_ h3
      intro m hm
      rw [Option.some_inj] at hm
      subst hm
      apply msg_ne
      rw [String.length_append]
      have : ("Unexpected error on attempt ").length = 28 := rfl
      omega

/-- C1 counterexample.  A 429 on the first attempt followed by a 200 on the
second leaves `success = True` with the stale first-attempt error message:
`success == true` does not imply an empty `error`. -/
theorem claim_C1_counterexample :
    (fetch_attempt_loop 3 ("u") ("s") netRateLimitedThen200 noParse 0 zeroMs).1.success = true
    ∧ (fetch_attempt_loop 3 ("u") ("s") netRateLimitedThen200 noParse 0 zeroMs).1.error
      = some ("Rate limited (429) on attempt 1") := by
  with_unfolding_all decide

/-- C1 as amended (for at least one configured attempt, as in all three
site configs): `success == false` implies `error` is non-empty; and
`success == true` implies `error` is empty *when the success came on the
first attempt* — on a retry success, `error` retains the last failed
attempt's message. -/
theorem claim_C1_error_iff_failure (retries : ℕ) (url site : String)
    (net : ℕ → NetOutcome) (parse : String → List Property) (now : ℚ)
    (elapsed : ℕ → ℕ) (hret : 1 ≤ retries) :
    ((fetch_attempt_loop retries url site net parse now elapsed).1.success = false →
      ∃ m, (fetch_attempt_loop retries url site net parse now elapsed).1.error = some m
        ∧ m ≠ (""))
    ∧ (∀ body, net 0 = NetOutcome.status 200 body →
      (fetch_attempt_loop retries url site net parse now elapsed).1.error = none) := by
  constructor
  · intro h3
    exact attemptGo_failure_error retries net parse elapsed retries 0
      (initFetchResult url site now) none 0 (fun _ => hret) (by simp [initFetchResult]) h3
  · intro body hnet
    obtain ⟨n, rfl⟩ : ∃ n, retries = n + 1 := ⟨retries - 1, by omega⟩
    simp [fetch_attempt_loop, attemptGo, hnet, finalizeResult, initFetchResult, truthyS]

/-- Witness for the amended C1: a single 404 attempt fails with a non-empty
error, and a first-attempt 200 leaves the error empty. -/
theorem claim_C1_error_iff_failure_witness :
    (∃ m, (fetch_attempt_loop 1 ("u") ("s") net404 noParse 0 zeroMs).1.error = some m
      ∧ m ≠ (""))
    ∧ (fetch_attempt_loop 1 ("u") ("s") netOk noParse 0 zeroMs).1.error = none :=
  ⟨(claim_C1_error_iff_failure 1 ("u") ("s") net404 noParse 0 zeroMs (by norm_num)).1
      (by with_unfolding_all decide),
   (claim_C1_error_iff_failure 1 ("u") ("s") netOk noParse 0 zeroMs (by norm_num)).2
      ("b") rfl⟩

/-! ### Fetcher: terminal client errors -/

/-- C4 counterexample.  A 400-equivalent client error is *not* terminal:
it falls into the server-error branch and is retried — here a second
network attempt is issued (and succeeds), whereas the claim requires no
further attempts after a non-429 4xx. -/
theorem claim_C4_counterexample :
    (fetch_attempt_loop 3 ("u") ("s") netBadRequestThen200 noParse 0 zeroMs).2 = 2
    ∧ (fetch_attempt_loop 3 ("u") ("s") netBadRequestThen200 noParse 0 zeroMs).1.success = true := by
  with_unfolding_all decide

/-- C4 as amended: only the statuses 403 and 404 are terminal client
errors — one network attempt is made, no retry follows, the fetch fails
and the error is recorded in the result.  (Other non-429 4xx statuses are
handled by the server-error branch and retried.) -/
theorem claim_C4_client_error_terminal (retries : ℕ) (url site : String)
    (net : ℕ → NetOutcome) (parse : String → List Property) (now : ℚ)
    (elapsed : ℕ → ℕ) (hret : 1 ≤ retries) (c : ℕ) (body : String)
    (hc : c = 403 ∨ c = 404) (hnet : net 0 = NetOutcome.status c body) :
    (fetch_attempt_loop retries url site net parse now elapsed).2 = 1
    ∧ (fetch_attempt_loop retries url site net parse now elapsed).1.success = false
    ∧ (fetch_attempt_loop retries url site net parse now elapsed).1.error
      = some (("Client error ") ++ toString c) := by
  obtain ⟨n, rfl⟩ : ∃ n, retries = n + 1 := ⟨retries - 1, by omega⟩
  have hc200 : ¬(c = 200) := by rcases hc with rfl | rfl <;> norm_num
  have hc429 : ¬(c = 429) := by rcases hc with rfl | rfl <;> norm_num
  simp [fetch_attempt_loop, attemptGo, hnet, hc200, hc429, hc, finalizeResult,
    initFetchResult, truthyS]

/-- Witness for the amended C4 at a 403 response. -/
theorem claim_C4_client_error_terminal_witness :
    (fetch_attempt_loop 3 ("u") ("s") net403 noParse 0 zeroMs).2 = 1
    ∧ (fetch_attempt_loop 3 ("u") ("s") net403 noParse 0 zeroMs).1.success = false
    ∧ (fetch_attempt_loop 3 ("u") ("s") net403 noParse 0 zeroMs).1.error
      = some (("Client error ") ++ toString 403) :=
  claim_C4_client_error_terminal 3 ("u") ("s") net403 noParse 0 zeroMs (by norm_num)
    403 ("") (Or.inl rfl) rfl

/-! ### Fetcher: cache TTL round-trip -/

theorem finalizeResult_used (retries : ℕ) (res : FetchResult)
    (lastExc : Option String) (used : ℕ) :
    (finalizeResult retries res lastExc used).2 = used := by
  unfold finalizeResult
  split
  · cases lastExc <;> rfl
  · rfl

theorem attemptGo_used_ge (retries : ℕ) (net : ℕ → NetOutcome)
    (parse : String → List Property) (elapsed : ℕ → ℕ) :
    ∀ (fuel attempt : ℕ) (res : FetchResult) (lastExc : Option String) (used : ℕ),
    used ≤ (attemptGo retries net parse elapsed fuel attempt res lastExc used).2 := by
  intro fuel
  induction fuel with
  | zero =>
    intro attempt res lastExc used
    simp only [attemptGo, finalizeResult_used]
    exact le_refl _
  | succ f ih =>
    intro attempt res lastExc used
    cases hnet : net attempt with
    | status c body =>
      simp only [attemptGo, hnet]
      by_cases hc200 : c = 200
      · rw [if_pos hc200, finalizeResult_used]; omega
      · rw [if_neg hc200]
        by_cases hc429 : c = 429
        · rw [if_pos hc429]
          exact le_trans (by omega) (ih _ _ _ _)
        · rw [if_neg hc429]
          by_cases hc34 : c = 403 ∨ c = 404
          · rw [if_pos hc34, finalizeResult_used]; omega
          · rw [if_neg hc34]
            exact le_trans (by omega) (ih _ _ _ _)
    | timeout =>
      simp only [attemptGo, hnet]
      exact le_trans (by omega) (ih _ _ _ _)
    | clientError msg =>
      simp only [attemptGo, hnet]
      exact le_trans (by omega) (ih _ _ _ _)
    | failure msg =>
      simp only [attemptGo, hnet]
      exact le_trans (by omega) (ih _ _ _ _)

theorem fetch_attempt_loop_used_pos (retries : ℕ) (url site : String)
    (net : ℕ → NetOutcome) (parse : String → List Property) (now : ℚ)
    (elapsed : ℕ → ℕ) (hret : 1 ≤ retries) :
    1 ≤ (fetch_attempt_loop retries url site net parse now elapsed).2 := by
  obtain ⟨n, rfl⟩ : ∃ n, retries = n + 1 := ⟨retries - 1, by omega⟩
  unfold fetch_attempt_loop
  cases hnet : net 0 with
  | status c body =>
    simp only [attemptGo, hnet]
    by_cases hc200 : c = 200
    · rw [if_pos hc200, finalizeResult_used]
    · rw [if_neg hc200]
      by_cases hc429 : c = 429
      · rw [if_pos hc429]
        exact le_trans (by omega) (attemptGo_used_ge _ _ _ _ _ _ _ _ _)
      · rw [if_neg hc429]
        by_cases hc34 : c = 403 ∨ c = 404
        · rw [if_pos hc34, finalizeResult_used]
        · rw [if_neg hc34]
          exact le_trans (by omega) (attemptGo_used_ge _ _ _ _ _ _ _ _ _)
  | timeout =>
    simp only [attemptGo, hnet]
    exact le_trans (by omega) (attemptGo_used_ge _ _ _ _ _ _ _ _ _)
  | clientError msg =>
    simp only [attemptGo, hnet]
    exact le_trans (by omega) (attemptGo_used_ge _ _ _ _ _ _ _ _ _)
  | failure msg =>
    simp only [attemptGo, hnet]
    exact le_trans (by omega) (attemptGo_used_ge _ _ _ _ _ _ _ _ _)

theorem cacheFind_set (c : FetchCache) (url : String) (r : FetchResult) (now : ℚ) :
    cacheFind (cache_set c url r now) url = some (r, now) := by
  unfold cacheFind cache_set
  rw [List.find?_append]
  have hnone : List.find? (fun e => e.1 == url) (c.filter (fun e => !(e.1 == url))) = none := by
    rw [List.find?_eq_none]
    intro x hx
    have := (List.mem_filter.mp hx).2
    simp at this
    simp [this]
  rw [hnone]
  simp

/-- C8.  For a URL not previously cached whose first fetch succeeds (and is
therefore cached): a second fetch strictly within the TTL returns the
cached FetchResult unchanged, leaves the cache unchanged, and issues zero
network attempts; once the TTL has elapsed, the entry no longer hits and at
least one new network attempt is issued. -/
theorem claim_C8_cache_ttl (ttl : ℚ) (c0 : FetchCache) (t1 t2 : ℚ)
    (url site : String) (retries : ℕ) (net net2 : ℕ → NetOutcome)
    (parse parse2 : String → List Property) (elapsed elapsed2 : ℕ → ℕ)
    (hfresh : cacheFind c0 url = none)
    (hsucc : (fetch_single_property_page ttl c0 t1 url site retries net parse elapsed).1.success = true)
    (hret : 1 ≤ retries) :
    (t2 - t1 < ttl →
      fetch_single_property_page ttl
        (fetch_single_property_page ttl c0 t1 url site retries net parse elapsed).2.1
        t2 url site retries net2 parse2 elapsed2
      = ((fetch_single_property_page ttl c0 t1 url site retries net parse elapsed).1,
         (fetch_single_property_page ttl c0 t1 url site retries net parse elapsed).2.1, 0))
    ∧ (ttl ≤ t2 - t1 →
      1 ≤ (fetch_single_property_page ttl
        (fetch_single_property_page ttl c0 t1 url site retries net parse elapsed).2.1
        t2 url site retries net2 parse2 elapsed2).2.2) := by
  have hget1 : cache_get c0 ttl url t1 = (none, c0) := by
    unfold cache_get
    rw [hfresh]
  have hs : (fetch_attempt_loop retries url site net parse t1 elapsed).1.success = true := by
    have h := hsucc
    simpa [fetch_single_property_page, hget1] using h
  have hfirst : fetch_single_property_page ttl c0 t1 url site retries net parse elapsed
      = ((fetch_attempt_loop retries url site net parse t1 elapsed).1,
         cache_set c0 url (fetch_attempt_loop retries url site net parse t1 elapsed).1 t1,
         (fetch_attempt_loop retries url site net parse t1 elapsed).2) := by
    simp [fetch_single_property_page, hget1, hs]
  rw [hfirst]
  have hfind2 := cacheFind_set c0 url
    (fetch_attempt_loop retries url site net parse t1 elapsed).1 t1
  constructor
  · intro hlt
    have hget2 : cache_get
        (cache_set c0 url (fetch_attempt_loop retries url site net parse t1 elapsed).1 t1)
        ttl url t2
        = (some (fetch_attempt_loop retries url site net parse t1 elapsed).1,
           cache_set c0 url (fetch_attempt_loop retries url site net parse t1 elapsed).1 t1) := by
      unfold cache_get
      rw [hfind2]
      dsimp only
      rw [if_pos hlt]
    simp [fetch_single_property_page, hget2]
  · intro hge
    have hget2 : cache_get
        (cache_set c0 url (fetch_attempt_loop retries url site net parse t1 elapsed).1 t1)
        ttl url t2
        = (none,
           (cache_set c0 url (fetch_attempt_loop retries url site net parse t1 elapsed).1 t1).filter
             (fun e => !(e.1 == url))) := by
      unfold cache_get
      rw [hfind2]
      dsimp only
      rw [if_neg (by exact not_lt.mpr hge)]
    simp only [fetch_single_property_page, hget2]
    exact fetch_attempt_loop_used_pos retries url site net2 parse2 t2 elapsed2 hret

/-- Witness for C8: a cached 200 at time 0 hits again at time 10
(TTL 30 minutes) with zero attempts. -/
theorem claim_C8_cache_ttl_witness :
    fetch_single_property_page 30 c8first.2.1 10 ("u") ("s") 1 netOk noParse zeroMs
      = (c8first.1, c8first.2.1, 0) :=
  (claim_C8_cache_ttl 30 [] 0 10 ("u") ("s") 1 netOk netOk noParse noParse zeroMs zeroMs
    rfl (by with_unfolding_all decide) (by norm_num)).1 (by norm_num)

/-! ### Orchestrator: one result per configured task -/

theorem fetch_site_urls_length (ttl : ℚ) (cfg : SiteConfig) (site : String)
    (now : ℚ) (net : String → ℕ → NetOutcome)
    (parse : String → String → List Property) (elapsed : ℕ → ℕ) :
    ∀ (urls : List UrlData) (c : FetchCache),
    (fetch_site_urls ttl cfg site now net parse elapsed urls c).1.length = urls.length := by
  intro urls
  induction urls with
  | nil => intro c; rfl
  | cons u rest ih =>
    intro c
    simp only [fetch_site_urls, List.length_cons]
    rw [ih]

theorem fetch_groups_go_length (ttl : ℚ) (now : ℚ) (net : String → ℕ → NetOutcome)
    (parse : String → String → List Property) (elapsed : ℕ → ℕ) :
    ∀ (gs : List (String × List UrlData)) (c : FetchCache),
    (fetch_groups_go ttl now net parse elapsed gs c).1.length
      = (gs.map (fun g => if (siteConfigs.lookup g.1).isSome then g.2.length else 0)).sum := by
  intro gs
  induction gs with
  | nil => intro c; rfl
  | cons g rest ih =>
    intro c
    cases hlk : siteConfigs.lookup g.1 with
    | none => simp [fetch_groups_go, hlk, ih]
    | some cfg =>
      simp [fetch_groups_go, hlk, ih, fetch_site_urls_length]

theorem siteKeys_nodup : ∀ (ts : List UrlData), (siteKeys ts).Nodup := by
  intro ts
  induction ts with
  | nil => exact List.nodup_nil
  | cons t rest ih =>
    simp only [siteKeys]
    refine List.Nodup.cons ?_ (List.Nodup.filter _ ih)
    intro hmem
    have := (List.mem_filter.mp hmem).2
    simp at this
  
theorem mem_siteKeys : ∀ (ts : List UrlData) (t : UrlData), t ∈ ts → t.site ∈ siteKeys ts := by
  intro ts
  induction ts with
  | nil => intro t ht; simp at ht
  | cons hd rest ih =>
    intro t ht
    rcases List.mem_cons.mp ht with rfl | ht'
    · simp [siteKeys]
    · simp only [siteKeys]
      by_cases he : t.site = hd.site
    
      · rw [he]; exact List.mem_cons_self _ _
      · refine List.mem_cons_of_mem _ (List.mem_filter.mpr ⟨ih t ht', ?_⟩)
        simp [he]

theorem sumMapAdd (K : List String) (f g : String → ℕ) :
    (K.map (fun s => f s + g s)).sum = (K.map f).sum + (K.map g).sum := by
  induction K with
  | nil => rfl
  | cons k rest ih => simp only [List.map_cons, List.sum_cons, ih]; omega

theorem sumIndicator :
    ∀ (K : List String), K.Nodup → ∀ (x : String), x ∈ K → ∀ (c : ℕ),
    (K.map (fun s => if s == x then c else 0)).sum = c := by
  intro K
  induction K with
  | nil => intro _ x hx; simp at hx
  | cons k rest ih =>
    intro hnd x hx c
    rcases List.mem_cons.mp hx with rfl | hx'
    · have hzero : (rest.map (fun s => if s == x then c else 0)).sum = 0 := by
        have hcong : rest.map (fun s => if s == x then c else 0)
            = rest.map (fun _ => 0) := by
          apply List.map_congr_left
          intro s hs
          have hne : s ≠ x := by
            intro he
            subst he
            exact (List.nodup_cons.mp hnd).1 hs
          simp [hne]
        rw [hcong]
        simp
      simp only [List.map_cons, List.sum_cons, hzero]
      simp
    · have hne : k ≠ x := by
        intro he
        subst he
        exact (List.nodup_cons.mp hnd).1 hx'
      simp only [List.map_cons, List.sum_cons]
      rw [if_neg (by simp [hne]), ih (List.nodup_cons.mp hnd).2 x hx' c]
      omega

theorem sum_counts (conf : String → Bool) :
    ∀ (ts : List UrlData) (K : List String), K.Nodup → (∀ t ∈ ts, t.site ∈ K) →
    ((K.map (fun s => if conf s then (ts.filter (fun t => t.site == s)).length else 0)).sum)
      = (ts.filter (fun t => conf t.site)).length := by
  intro ts
  induction ts with
  | nil =>
    intro K _ _
    have : K.map (fun s => if conf s then (([] : List UrlData).filter (fun t => t.site == s)).length else 0)
        = K.map (fun _ => 0) := by
      apply List.map_congr_left
      intro s _
      simp
    rw [this]
    simp
  | cons t rest ih =>
    intro K hnd hcov
    have hsplit : ∀ s, (if conf s then (((t :: rest).filter (fun x => x.site == s))).length else 0)
        = (if s == t.site then (if conf t.site then 1 else 0) else 0)
          + (if conf s then ((rest.filter (fun x => x.site == s))).length else 0) := by
      intro s
      by_cases hst : s = t.site
      · subst hst
        by_cases hcs : conf t.site
        · simp [List.filter_cons, hcs]
          omega
        · simp [List.filter_cons, hcs]
      · have hts : (t.site == s) = false := by
          simp
          intro he
          exact hst he.symm
        have hst' : (s == t.site) = false := by simp [hst]
        simp only [List.filter_cons, hts, hst']
        simp
    have hmap : K.map (fun s => if conf s then (((t :: rest).filter (fun x => x.site == s))).length else 0)
        = K.map (fun s => (if s == t.site then (if conf t.site then 1 else 0) else 0)
          + (if conf s then ((rest.filter (fun x => x.site == s))).length else 0)) := by
      apply List.map_congr_left
      intro s _
      exact hsplit s
    rw [hmap, sumMapAdd,
      sumIndicator K hnd t.site (hcov t (List.mem_cons_self t rest)) _,
      ih K hnd (fun x hx => hcov x (List.mem_cons_of_mem t hx))]
    simp only [List.filter_cons]
    by_cases hct : conf t.site
    · simp [hct]
      omega
    · simp [hct]

/-- C3 counterexample.  A task for a site with no `site_configs` entry
produces *no* FetchResult at all: the orchestrator returns an empty list
for a one-task batch, not one result per task. -/
theorem claim_C3_counterexample :
    (fetch_properties_concurrent 30 [] 0 [unknownSiteTask] netBySite parseBySite zeroMs).1 = []
    ∧ [unknownSiteTask].length = 1 := by
  constructor
  · with_unfolding_all decide
  · rfl

/-- C3 as amended: the orchestrator returns exactly one FetchResult per
submitted task *whose site is configured* (tasks for unconfigured sites
are silently dropped); in particular no task's failure removes a sibling
configured task's result — the count holds for every network oracle,
including ones on which every attempt fails. -/
theorem claim_C3_one_result_per_configured_task (ttl : ℚ) (c : FetchCache)
    (now : ℚ) (tasks : List UrlData) (net : String → ℕ → NetOutcome)
    (parse : String → String → List Property) (elapsed : ℕ → ℕ) :
    (fetch_properties_concurrent ttl c now tasks net parse elapsed).1.length
      = (tasks.filter (fun t => (siteConfigs.lookup t.site).isSome)).length := by
  unfold fetch_properties_concurrent
  rw [fetch_groups_go_length]
  unfold groupBySite
  rw [List.map_map]
  have hcomp : ((fun g : String × List UrlData =>
        if (siteConfigs.lookup g.1).isSome then g.2.length else 0)
      ∘ (fun s => (s, tasks.filter (fun t => t.site == s))))
      = fun s => if (siteConfigs.lookup s).isSome
          then (tasks.filter (fun t => t.site == s)).length else 0 := by
    funext s
    rfl
  rw [hcomp]
  exact sum_counts (fun s => (siteConfigs.lookup s).isSome) tasks (siteKeys tasks)
    (siteKeys_nodup tasks) (fun t ht => mem_siteKeys tasks t ht)

/-! ### Ranking engine: hard filters and sort order -/

theorem passes_hard_filters_spec (p : PropertyModel) (query : Query)
    (h : passes_hard_filters p query = true) :
    ((pyLower (pyStrip query.suburb) ≠ ("")) →
      strIn (pyLower (pyStrip query.suburb)) (pyLower (pyStrip p.location)) = true)
    ∧ (∀ m, query.beds_min = some m → ∃ b, p.bedrooms = some b ∧ m ≤ b)
    ∧ (∀ m, query.baths_min = some m → ∃ b, p.bathrooms = some b ∧ m ≤ b)
    ∧ (query.must_park = true → ∃ k, p.parking = some k ∧ 0 < k) := by
  unfold passes_hard_filters at h
  dsimp only at h
  by_cases hc1 : (pyLower (pyStrip query.suburb) != ("")
      && !strIn (pyLower (pyStrip query.suburb)) (pyLower (pyStrip p.location))) = true
  · rw [if_pos hc1] at h
    exact absurd h (by simp)
  · rw [if_neg hc1] at h
    by_cases hc2 : (match query.beds_min with
      | some m => (match p.bedrooms with | none => true | some b => decide (b < m))
      | none => false) = true
    · rw [if_pos hc2] at h
      exact absurd h (by simp)
    · rw [if_neg hc2] at h
      by_cases hc3 : (match query.baths_min with
        | some m => (match p.bathrooms with | none => true | some b => decide (b < m))
        | none => false) = true
      · rw [if_pos hc3] at h
        exact absurd h (by simp)
      · rw [if_neg hc3] at h
        by_cases hc4 : (query.must_park && !hasParking p.parking) = true
        · rw [if_pos hc4] at h
          exact absurd h (by simp)
        · refine ⟨?_, ?_, ?_, ?_⟩
          · intro hq
            have hc1' : (pyLower (pyStrip query.suburb) != ("")
                && !strIn (pyLower (pyStrip query.suburb)) (pyLower (pyStrip p.location)))
                = false := eq_false_of_ne_true hc1
            rcases Bool.and_eq_false_iff.mp hc1' with hl | hr
            · exact absurd (bne_iff_ne.mpr hq) (by simp [hl])
            · simpa using hr
          · intro m hm
            rw [hm] at hc2
            cases hb : p.bedrooms with
            | none => rw [hb] at hc2; simp at hc2
            | some b =>
              rw [hb] at hc2
              refine ⟨b, rfl, ?_⟩
              simp at hc2
              omega
          · intro m hm
            rw [hm] at hc3
            cases hb : p.bathrooms with
            | none => rw [hb] at hc3; simp at hc3
            | some b =>
              rw [hb] at hc3
              refine ⟨b, rfl, ?_⟩
              simp at hc3
              omega
          · intro hmp
            rw [hmp] at hc4
            cases hk : p.parking with
            | none => rw [hk] at hc4; simp [hasParking] at hc4
            | some k =>
              rw [hk] at hc4
              refine ⟨k, rfl, ?_⟩
              simp [hasParking] at hc4
              omega

/-- C5.  Every entry of the ranked output satisfies every hard filter the
query specifies: the suburb substring match when a suburb is given,
bedrooms ≥ the bedroom minimum, bathrooms ≥ the bathroom minimum, and
parking > 0 when parking is required.  (`address`/`bedrooms`/… of a ranked
entry are copied verbatim from the underlying listing.) -/
theorem claim_C5_hard_filters (clock : String → Option ℤ)
    (props : List PropertyModel) (query : Query) (topk : ℕ) :
    ∀ r ∈ recommend_properties clock props query topk,
      ((pyLower (pyStrip query.suburb) ≠ ("")) →
        strIn (pyLower (pyStrip query.suburb)) (pyLower (pyStrip r.address)) = true)
      ∧ (∀ m, query.beds_min = some m → ∃ b, r.bedrooms = some b ∧ m ≤ b)
      ∧ (∀ m, query.baths_min = some m → ∃ b, r.bathrooms = some b ∧ m ≤ b)
      ∧ (query.must_park = true → ∃ k, r.parking = some k ∧ 0 < k) := by
  intro r hr
  unfold recommend_properties at hr
  split at hr
  · simp at hr
  · have hr1 := List.mem_of_mem_take hr
    have hr2 := (List.mem_insertionSort (sortRel query)).mp hr1
    obtain ⟨p, hp, rfl⟩ := List.mem_map.mp hr2
    have hpass := (List.mem_filter.mp hp).2
    have hspec := passes_hard_filters_spec p query hpass
    have haddr : (calculate_score clock p query
        (listMinQ (props.filterMap (fun p => extract_price_per_week p.price)))
        (listMaxQ (props.filterMap (fun p => extract_price_per_week p.price)))).address
        = p.location := rfl
    have hbeds : (calculate_score clock p query
        (listMinQ (props.filterMap (fun p => extract_price_per_week p.price)))
        (listMaxQ (props.filterMap (fun p => extract_price_per_week p.price)))).bedrooms
        = p.bedrooms := rfl
    have hbaths : (calculate_score clock p query
        (listMinQ (props.filterMap (fun p => extract_price_per_week p.price)))
        (listMaxQ (props.filterMap (fun p => extract_price_per_week p.price)))).bathrooms
        = p.bathrooms := rfl
    have hpark : (calculate_score clock p query
        (listMinQ (props.filterMap (fun p => extract_price_per_week p.price)))
        (listMaxQ (props.filterMap (fun p => extract_price_per_week p.price)))).parking
        = p.parking := rfl
    rw [haddr, hbeds, hbaths, hpark]
    exact hspec

theorem optLeInf_trans (a b c : Option ℚ) (h1 : optLeInf a b = true)
    (h2 : optLeInf b c = true) : optLeInf a c = true := by
  cases a <;> cases b <;> cases c <;> simp [optLeInf] at h1 h2 ⊢
  exact le_trans h1 h2

theorem optLeInf_total (a b : Option ℚ) : optLeInf a b = true ∨ optLeInf b a = true := by
  cases a <;> cases b <;> simp [optLeInf]
  exact le_total _ _

theorem sortLe_cases (q : Query) (x y : RankedRec) (h : sortLe q x y = true) :
    y.score < x.score
    ∨ (x.score = y.score ∧ (price_delta_to_user x q < price_delta_to_user y q
      ∨ (price_delta_to_user x q = price_delta_to_user y q
        ∧ optLeInf (sortPriceVal x) (sortPriceVal y) = true))) := by
  unfold sortLe at h
  by_cases h1 : y.score < x.score
  · left; exact h1
  · rw [if_neg h1] at h
    by_cases h2 : x.score < y.score
    · rw [if_pos h2] at h
      exact absurd h (by simp)
    · rw [if_neg h2] at h
      have hs : x.score = y.score := le_antisymm (not_lt.mp h1) (not_lt.mp h2)
      right
      refine ⟨hs, ?_⟩
      dsimp only at h
      by_cases h3 : price_delta_to_user x q < price_delta_to_user y q
      · left; exact h3
      · rw [if_neg h3] at h
        by_cases h4 : price_delta_to_user y q < price_delta_to_user x q
        · rw [if_pos h4] at h
          exact absurd h (by simp)
        · rw [if_neg h4] at h
          exact Or.inr ⟨le_antisymm (not_lt.mp h4) (not_lt.mp h3), h⟩

theorem sortLe_intro (q : Query) (x y : RankedRec)
    (h : y.score < x.score
      ∨ (x.score = y.score ∧ (price_delta_to_user x q < price_delta_to_user y q
        ∨ (price_delta_to_user x q = price_delta_to_user y q
          ∧ optLeInf (sortPriceVal x) (sortPriceVal y) = true)))) :
    sortLe q x y = true := by
  unfold sortLe
  rcases h with h | ⟨hs, h⟩
  · rw [if_pos h]
  · rw [if_neg (by rw [hs]; exact lt_irrefl _), if_neg (by rw [hs]; exact lt_irrefl _)]
    dsimp only
    rcases h with h | ⟨hd, h⟩
    · rw [if_pos h]
    · rw [if_neg (by rw [hd]; exact lt_irrefl _), if_neg (by rw [hd]; exact lt_irrefl _)]
      exact h

theorem sortLe_total (q : Query) (x y : RankedRec) :
    sortLe q x y = true ∨ sortLe q y x = true := by
  rcases lt_trichotomy x.score y.score with h | h | h
  · right; exact sortLe_intro q y x (Or.inl h)
  · rcases lt_trichotomy (price_delta_to_user x q) (price_delta_to_user y q) with hd | hd | hd
    · left; exact sortLe_intro q x y (Or.inr ⟨h, Or.inl hd⟩)
    · rcases optLeInf_total (sortPriceVal x) (sortPriceVal y) with hp | hp
      · left; exact sortLe_intro q x y (Or.inr ⟨h, Or.inr ⟨hd, hp⟩⟩)
      · right; exact sortLe_intro q y x (Or.inr ⟨h.symm, Or.inr ⟨hd.symm, hp⟩⟩)
    · right; exact sortLe_intro q y x (Or.inr ⟨h.symm, Or.inl hd⟩)
  · left; exact sortLe_intro q x y (Or.inl h)

theorem sortLe_trans (q : Query) (x y z : RankedRec) (hxy : sortLe q x y = true)
    (hyz : sortLe q y z = true) : sortLe q x z = true := by
  apply sortLe_intro
  rcases sortLe_cases q x y hxy with h1 | ⟨hs1, h1⟩
  · rcases sortLe_cases q y z hyz with h2 | ⟨hs2, _⟩
    · exact Or.inl (lt_trans h2 h1)
    · exact Or.inl (hs2 ▸ h1)
  · rcases sortLe_cases q y z hyz with h2 | ⟨hs2, h2⟩
    · exact Or.inl (hs1 ▸ h2)
    · refine Or.inr ⟨hs1.trans hs2, ?_⟩
      rcases h1 with h1 | ⟨hd1, h1⟩
      · rcases h2 with h2 | ⟨hd2, _⟩
        · exact Or.inl (lt_trans h1 h2)
        · exact Or.inl (hd2 ▸ h1)
      · rcases h2 with h2 | ⟨hd2, h2⟩
        · exact Or.inl (hd1 ▸ h2)
        · exact Or.inr ⟨hd1.trans hd2, optLeInf_trans _ _ _ h1 h2⟩

/-- C9.  The ranked output is sorted: between any two adjacent entries the
earlier one has a strictly higher score, or an equal score and a
smaller-or-equal distance from the user's price-range midpoint, or equal
on both and a lower-or-equal price key; and at most `topk` entries are
returned. -/
theorem claim_C9_sort_order (clock : String → Option ℤ)
    (props : List PropertyModel) (query : Query) (topk : ℕ) :
    List.Chain'
      (fun a b => b.score < a.score
        ∨ (a.score = b.score ∧ price_delta_to_user a query ≤ price_delta_to_user b query)
        ∨ (a.score = b.score ∧ price_delta_to_user a query = price_delta_to_user b query
          ∧ optLeInf (sortPriceVal a) (sortPriceVal b) = true))
      (recommend_properties clock props query topk)
    ∧ (recommend_properties clock props query topk).length ≤ topk := by
  constructor
  · unfold recommend_properties
    split
    · simp
    · apply List.Pairwise.chain'
      haveI htot : IsTotal RankedRec (sortRel query) := ⟨fun a b => sortLe_total query a b⟩
      haveI htr : IsTrans RankedRec (sortRel query) :=
        ⟨fun a b c hab hbc => sortLe_trans query a b c hab hbc⟩
      have hsorted := List.sorted_insertionSort (sortRel query)
        ((props.filter (fun p => passes_hard_filters p query)).map
          (fun p => calculate_score clock p query
            (listMinQ (props.filterMap (fun p => extract_price_per_week p.price)))
            (listMaxQ (props.filterMap (fun p => extract_price_per_week p.price)))))
      have htake := List.Pairwise.sublist (List.take_sublist topk _) hsorted
      refine htake.imp ?_
      intro a b hab
      rcases sortLe_cases query a b hab with h | ⟨hs, h⟩
      · exact Or.inl h
      · rcases h with h | ⟨hd, hp⟩
        · exact Or.inr (Or.inl ⟨hs, le_of_lt h⟩)
        · exact Or.inr (Or.inr ⟨hs, hd, hp⟩)
  · unfold recommend_properties
    split
    · simp
    · rw [List.length_take]
      exact min_le_left _ _

set_option maxRecDepth 8000 in
/-- Witness for C5 at a one-listing input with every hard filter
specified. -/
theorem claim_C5_hard_filters_witness :
    strIn (pyLower (pyStrip bondiQuery.suburb))
      (pyLower (pyStrip (List.headD
        (recommend_properties noneClock [bondiProp] bondiQuery 10) default).address)) = true
    ∧ (∃ b, (List.headD
        (recommend_properties noneClock [bondiProp] bondiQuery 10) default).bedrooms
        = some b ∧ 2 ≤ b)
    ∧ (∃ b, (List.headD
        (recommend_properties noneClock [bondiProp] bondiQuery 10) default).bathrooms
        = some b ∧ 1 ≤ b)
    ∧ (∃ k, (List.headD
        (recommend_properties noneClock [bondiProp] bondiQuery 10) default).parking
        = some k ∧ 0 < k) := by
  have h := claim_C5_hard_filters noneClock [bondiProp] bondiQuery 10
    (List.headD (recommend_properties noneClock [bondiProp] bondiQuery 10) default)
    (by with_unfolding_all decide)
  exact ⟨h.1 (by with_unfolding_all decide), h.2.1 2 rfl, h.2.2.1 1 rfl, h.2.2.2 rfl⟩
